import Mathlib

/-
Verification of the telegram_torrent repository's core behaviors: the
status-diff torrent monitor, the Telegram polling/dispatch loop, the
notification sender, magnet-link extraction, and the Jackett Torznab
response parser.  Python functions are shallowly embedded as executable
Lean definitions; strings are modelled as `String` or `List Char`
(Python `str` is a sequence of code points), dictionaries as
association lists, and raised exceptions as `Except` / `Option` values.
-/

set_option maxHeartbeats 1000000

namespace TelegramTorrent

/-! ## Basic character / string primitives (models of Python built-ins) -/

/-- Model of `str.isdigit` on a single ASCII character (the code only ever
compares against plain digit strings). -/
def isDigitChar (c : Char) : Bool :=
  c = '0' ∨ c = '1' ∨ c = '2' ∨ c = '3' ∨ c = '4' ∨
  c = '5' ∨ c = '6' ∨ c = '7' ∨ c = '8' ∨ c = '9'

/-- Numeric value of a digit character (0 for non-digits). -/
def charVal (c : Char) : Nat :=
  if c = '1' then 1 else if c = '2' then 2 else if c = '3' then 3 else
  if c = '4' then 4 else if c = '5' then 5 else if c = '6' then 6 else
  if c = '7' then 7 else if c = '8' then 8 else if c = '9' then 9 else 0

/-- The digit character for `n % 10`-style values below ten. -/
def digitChar (n : Nat) : Char :=
  if n = 1 then '1' else if n = 2 then '2' else if n = 3 then '3' else
  if n = 4 then '4' else if n = 5 then '5' else if n = 6 then '6' else
  if n = 7 then '7' else if n = 8 then '8' else if n = 9 then '9' else '0'

/-- Value of a digit string, as computed by Python `int` on a digit string. -/
def natOfDigits (l : List Char) : Nat :=
  l.foldl (fun acc c => 10 * acc + charVal c) 0

/-- Model of Python truthy-string-and-`isdigit` test: nonempty and all digits. -/
def isDigits (l : List Char) : Bool :=
  !l.isEmpty && l.all isDigitChar

/-- Decimal digits of `n`, most significant first (fuel-based so that it
reduces by evaluation; `fuel > n` suffices). -/
def natDigitsAux : Nat → Nat → List Char
  | 0, _ => []
  | fuel + 1, n =>
    if n < 10 then [digitChar n]
    else natDigitsAux fuel (n / 10) ++ [digitChar (n % 10)]

/-- Model of Python `str` on a natural number. -/
def natDigits (n : Nat) : List Char :=
  natDigitsAux (n + 1) n

/-- Model of Python `str` on a natural number, as a `String`. -/
def natDigitsStr (n : Nat) : String :=
  ⟨natDigits n⟩

/-- Whitespace recognizer for Python `str.strip` / `int` (ASCII whitespace). -/
def isSpaceChar (c : Char) : Bool :=
  c = ' ' ∨ c = '\t' ∨ c = '\n' ∨ c = '\r'

/-- Model of Python `str.strip()` on a list of characters. -/
def pyStrip (l : List Char) : List Char :=
  ((l.dropWhile isSpaceChar).reverse.dropWhile isSpaceChar).reverse

/-- Model of Python `int(s)` on a string: optional surrounding whitespace,
optional sign, then decimal digits; `none` models the `ValueError`.
(Digit-group underscores, an edge Python also accepts, never occur in the
inputs of this code base and are not modelled.) -/
def pyParseInt (s : String) : Option Int :=
  match pyStrip s.toList with
  | [] => none
  | '-' :: rest => if isDigits rest then some (-(natOfDigits rest : Int)) else none
  | '+' :: rest => if isDigits rest then some ((natOfDigits rest : Int)) else none
  | rest => if isDigits rest then some ((natOfDigits rest : Int)) else none

/-- Model of Python `str.startswith`. -/
def pyStartsWith (pat s : List Char) : Bool :=
  pat.isPrefixOf s

/-- Python `x in l` on a list of strings. -/
def memStr (h : String) : List String → Bool
  | [] => false
  | x :: xs => x == h || memStr h xs

/-- Uppercase counterpart of a lowercase ASCII letter (identity otherwise);
used to model case-insensitive regex matching and `str.upper`. -/
def upperOf (c : Char) : Char :=
  if c = 'a' then 'A' else if c = 'b' then 'B' else if c = 'c' then 'C' else
  if c = 'd' then 'D' else if c = 'e' then 'E' else if c = 'f' then 'F' else
  if c = 'g' then 'G' else if c = 'h' then 'H' else if c = 'i' then 'I' else
  if c = 'j' then 'J' else if c = 'k' then 'K' else if c = 'l' then 'L' else
  if c = 'm' then 'M' else if c = 'n' then 'N' else if c = 'o' then 'O' else
  if c = 'p' then 'P' else if c = 'q' then 'Q' else if c = 'r' then 'R' else
  if c = 's' then 'S' else if c = 't' then 'T' else if c = 'u' then 'U' else
  if c = 'v' then 'V' else if c = 'w' then 'W' else if c = 'x' then 'X' else
  if c = 'y' then 'Y' else if c = 'z' then 'Z' else c

/-- Case-insensitive match of one pattern character (given in lowercase)
against a subject character. -/
def ciEq (p c : Char) : Bool :=
  c = p ∨ c = upperOf p

/-! ## Status Diff Monitor (src/torrent_monitor.py, `monitor_torrents`) -/

/-- One row of the torrent-list response: `{hash, state, name}`
(progress and rates are not read by the diff logic). -/
structure Torrent where
  hash : String
  state : String
  name : String
deriving DecidableEq

/-- `previous_torrents_state`: infohash ↦ (state, name). -/
def PrevMap := List (String × (String × String))

/-- Dictionary lookup `previous_torrents_state[infohash]`. -/
def lookupPrev (m : PrevMap) (h : String) : Option (String × String) :=
  (m.find? (fun p => p.1 == h)).map (·.2)

/-- Dictionary store `previous_torrents_state[infohash] = {...}`. -/
def insertPrev : PrevMap → String → (String × String) → PrevMap
  | [], h, v => [(h, v)]
  | (k, w) :: rest, h, v =>
    if k == h then (h, v) :: rest else (k, w) :: insertPrev rest h v

/-- `download_states` from src/torrent_monitor.py line 16. -/
def download_states : List String :=
  ["downloading", "stalledDL", "checkingDL", "pausedDL", "queuedDL", "forcedDL"]

/-- `completion_states` from src/torrent_monitor.py line 17. -/
def completion_states : List String :=
  ["uploading", "seeding", "finished", "stalledUP", "checkingUP", "forcedUP"]

/-- The monitor's mutable state: the previous snapshot per infohash and the
write-once `completed_torrents` record. -/
structure MonitorState where
  prev : PrevMap
  completed : List String

/-- One emitted "Download Concluído" notification, recorded with the
triggering torrent's hash and the name placed in the message text. -/
structure Notification where
  hash : String
  name : String
deriving DecidableEq

/-- The downloading-to-completed observation (lines 18-20): the recorded
previous state is in the downloading class and the fresh state in the
completion class. -/
def dlCompObserved (s : MonitorState) (t : Torrent) : Bool :=
  (match lookupPrev s.prev t.hash with
   | some pv => download_states.contains pv.1
   | none => false) &&
  completion_states.contains t.state

/-- The full notification condition (lines 18-21): the observation above
plus `infohash not in completed_torrents`. -/
def monitorTrigger (s : MonitorState) (t : Torrent) : Bool :=
  dlCompObserved s t && !(memStr t.hash s.completed)

/-- Body of the inner `for torrent in current_torrents` loop
(src/torrent_monitor.py lines 12-24): possibly notify, record the
completion, and update the previous snapshot. -/
def processTorrent (s : MonitorState) (t : Torrent) : MonitorState × List Notification :=
  (⟨insertPrev s.prev t.hash (t.state, t.name),
    if monitorTrigger s t then t.hash :: s.completed else s.completed⟩,
   if monitorTrigger s t then [⟨t.hash, t.name⟩] else [])

/-- One poll's diff pass over the freshly fetched torrent list. -/
def processPoll (s : MonitorState) : List Torrent → MonitorState × List Notification
  | [] => (s, [])
  | t :: ts =>
    let r1 := processTorrent s t
    let r2 := processPoll r1.1 ts
    (r2.1, r1.2 ++ r2.2)

/-- Initial state built from the first fetch (line 7-8): snapshots recorded,
no completion records, no notifications. -/
def initMonitorState (init : List Torrent) : MonitorState :=
  ⟨init.foldl (fun m t => insertPrev m t.hash (t.state, t.name)) [], []⟩

/-- The monitor loop run over a sequence of successful fetches (a fetch that
raises only sends an error message and leaves the diff state untouched, so
failed polls are omitted from the sequence). -/
def runMonitor (s : MonitorState) : List (List Torrent) → MonitorState × List Notification
  | [] => (s, [])
  | p :: ps =>
    let r1 := processPoll s p
    let r2 := runMonitor r1.1 ps
    (r2.1, r1.2 ++ r2.2)

/-- All completion notifications emitted over a process lifetime that starts
with initial fetch `init` and then observes the polls in `polls`. -/
def monitorNotifications (init : List Torrent) (polls : List (List Torrent)) :
    List Notification :=
  (runMonitor (initMonitorState init) polls).2

/-- Number of completion notifications for infohash `h`. -/
def countFor (h : String) : List Notification → Nat
  | [] => 0
  | n :: ns => (if n.hash == h then 1 else 0) + countFor h ns

/-- Whether, somewhere during a diff pass started in state `s`, torrent `h`
is observed with its previously recorded state in the downloading class and
its fresh state in the completion class (the completion-record condition is
deliberately absent here). -/
def hasDLComp (h : String) : MonitorState → List Torrent → Bool
  | _, [] => false
  | s, t :: ts =>
    (t.hash == h && dlCompObserved s t) || hasDLComp h (processTorrent s t).1 ts

/-- `hasDLComp` lifted over a run of polls. -/
def hasDLCompRun (h : String) : MonitorState → List (List Torrent) → Bool
  | _, [] => false
  | s, p :: ps => hasDLComp h s p || hasDLCompRun h (processPoll s p).1 ps

/-! ## Magnet-link extraction
(`re.findall(r'magnet:\?xt=urn:btih:[0-9a-f]{40}.*', text, re.IGNORECASE)`,
src/main.py line 78; src/telegram_utils.py line 732 uses the equivalent
class `[0-9a-fA-F]` under the same flag.)  `re.findall` scans left to
right, and after each match resumes after the matched text. -/

/-- The hexadecimal-digit class `[0-9a-f]` under `re.IGNORECASE`. -/
def isHexChar (c : Char) : Bool :=
  isDigitChar c ||
  (c = 'a' ∨ c = 'b' ∨ c = 'c' ∨ c = 'd' ∨ c = 'e' ∨ c = 'f') ||
  (c = 'A' ∨ c = 'B' ∨ c = 'C' ∨ c = 'D' ∨ c = 'E' ∨ c = 'F')

/-- Case-insensitive match of a literal lowercase pattern at the head of the
subject, returning the rest of the subject. -/
def ciMatch : List Char → List Char → Option (List Char)
  | [], s => some s
  | _ :: _, [] => none
  | p :: ps, c :: cs => if ciEq p c then ciMatch ps cs else none

/-- `[0-9a-f]{40}` under IGNORECASE: exactly `n` hex digits, returning them
and the rest. -/
def takeHex : Nat → List Char → Option (List Char × List Char)
  | 0, s => some ([], s)
  | _ + 1, [] => none
  | n + 1, c :: cs =>
    if isHexChar c then (takeHex n cs).map (fun r => (c :: r.1, r.2)) else none

/-- The fixed literal part of the magnet regex. -/
def magnetPat : List Char := "magnet:?xt=urn:btih:".toList

/-- Try the whole magnet regex at the head of `s`: the literal prefix
(case-insensitively), 40 hex digits, then greedy `.*` (everything up to a
newline or the end).  Returns the matched text and the rest of the subject. -/
def tryMagnet (s : List Char) : Option (List Char × List Char) :=
  match ciMatch magnetPat s with
  | none => none
  | some r1 =>
    match takeHex 40 r1 with
    | none => none
    | some hr =>
      let tl := hr.2.takeWhile (fun c => !(c = '\n'))
      let r3 := hr.2.dropWhile (fun c => !(c = '\n'))
      some (s.take magnetPat.length ++ hr.1 ++ tl, r3)

/-- `re.findall` scanning loop (fuel-based; `fuel ≥ s.length` suffices, and
the wrapper below supplies exactly that). -/
def goMagnet : Nat → List Char → List (List Char)
  | 0, _ => []
  | _ + 1, [] => []
  | fuel + 1, c :: cs =>
    match tryMagnet (c :: cs) with
    | some mr => mr.1 :: goMagnet fuel mr.2
    | none => goMagnet fuel cs

/-- `re.findall` of the magnet regex over a message text. -/
def magnetFindAll (s : List Char) : List (List Char) :=
  goMagnet s.length s

/-- No suffix of `s` begins a magnet-regex match. -/
def noStart : List Char → Bool
  | [] => true
  | c :: cs => (tryMagnet (c :: cs)).isNone && noStart cs

/-- Display-name extraction from a matched magnet link
(src/main.py lines 86-89): `urlparse` takes the query after `?` (up to a
`#` fragment), `parse_qs` splits it on `&` and on the first `=`, dropping
blank values, and the name is the first `dn` value, with the whole link as
fallback.  (Percent-decoding by `parse_qs`, never exercised here, is not
modelled.) -/
def magnetDn (m : List Char) : List Char :=
  let query := ((m.dropWhile (fun c => !(c = '?'))).drop 1).takeWhile (fun c => !(c = '#'))
  let fields := query.splitOn '&'
  let dnVals := fields.filterMap (fun f =>
    let k := f.takeWhile (fun c => !(c = '='))
    let v := (f.dropWhile (fun c => !(c = '='))).drop 1
    if f.contains '=' && k == ("dn".toList) && !v.isEmpty then some v else none)
  match dnVals with
  | v :: _ => v
  | [] => m

/-! ## Notifier (src/telegram_utils.py, `send_telegram`, lines 98-147)

The two regex counts use `re.findall`; since a match of either tag regex
contains `<` only as its first character, matches can never overlap, so
counting the positions where a match starts equals the `findall` count. -/

/-- ASCII letter class `[a-z]` under `re.IGNORECASE`. -/
def isLetterChar (c : Char) : Bool :=
  ('a' ≤ c ∧ c ≤ 'z') ∨ ('A' ≤ c ∧ c ≤ 'Z')

/-- After `<` and one letter: `[^<>]*` then `>` (the letters of `[a-z]+`
beyond the first are absorbed by `[^<>]*`). -/
def scanToGt : List Char → Bool
  | [] => false
  | c :: cs => if c = '>' then true else if c = '<' then false else scanToGt cs

/-- Whether `<([a-z]+)[^<>]*>` (IGNORECASE) matches at the head. -/
def openTagAt : List Char → Bool
  | '<' :: c :: rest => isLetterChar c && scanToGt rest
  | _ => false

/-- After `</` and one letter: `[a-z]*` then `>`. -/
def lettersThenGt : List Char → Bool
  | [] => false
  | c :: cs => if c = '>' then true else if isLetterChar c then lettersThenGt cs else false

/-- Whether `</([a-z]+)>` (IGNORECASE) matches at the head. -/
def closeTagAt : List Char → Bool
  | '<' :: '/' :: c :: rest => isLetterChar c && lettersThenGt rest
  | _ => false

/-- `len(re.findall(r'<([a-z]+)[^<>]*>', msg, re.IGNORECASE))`. -/
def countOpenTags : List Char → Nat
  | [] => 0
  | c :: cs => (if openTagAt (c :: cs) then 1 else 0) + countOpenTags cs

/-- `len(re.findall(r'</([a-z]+)>', msg, re.IGNORECASE))`. -/
def countCloseTags : List Char → Nat
  | [] => 0
  | c :: cs => (if closeTagAt (c :: cs) then 1 else 0) + countCloseTags cs

/-- Python `str.upper` over a character list. -/
def pyUpper (l : List Char) : List Char :=
  l.map upperOf

/-- `parse_mode and parse_mode.upper() == "HTML"`. -/
def isHtmlMode : Option String → Bool
  | none => false
  | some s => !s.toList.isEmpty && pyUpper s.toList == ("HTML".toList)

/-- The outbound `sendMessage` request actually handed to the transport:
the (possibly truncated) text and the effective parse mode. -/
structure TgRequest where
  text : List Char
  parseMode : Option String
deriving DecidableEq

/-- `send_telegram` up to the transport call: the configuration guards
(lines 111-119), the unbalanced-HTML-tag fallback (lines 122-129) and the
length truncation (lines 131-133).  `none` models the early `return False`
paths; `some req` is the request posted to the transport.  (The keyboard /
reply-markup attachment and the retry after a transport error do not affect
the text or the parse mode of the first delivery and are out of scope.) -/
def send_telegram (token chat_id : String) (msg : List Char)
    (parse_mode : Option String) : Option TgRequest :=
  if token = "" then none
  else if chat_id = "" then none
  else
    let pm :=
      if isHtmlMode parse_mode && !(countOpenTags msg == countCloseTags msg) then none
      else parse_mode
    let msg2 := if msg.length > 4096 then msg.take 4093 ++ ("...".toList) else msg
    some ⟨msg2, pm⟩

/-! ## Jackett client (src/jackett_client.py)

The `xml.etree.ElementTree` view of a parsed document: elements with a tag,
attributes, children and text.  The namespaced Torznab attributes appear in
the model under the tag `torznab:attr`.  `ET.fromstring` failure
(`ET.ParseError`) is the `malformed` input case. -/

/-- A parsed XML element. -/
inductive XElem where
  | mk (tag : String) (attrs : List (String × String)) (children : List XElem)
      (text : Option String)

/-- Element tag. -/
def XElem.tag : XElem → String
  | .mk t _ _ _ => t

/-- Element attributes. -/
def XElem.attrs : XElem → List (String × String)
  | .mk _ a _ _ => a

/-- Element children. -/
def XElem.children : XElem → List XElem
  | .mk _ _ c _ => c

/-- Element text. -/
def XElem.text : XElem → Option String
  | .mk _ _ _ t => t

/-- `elem.get(key)`. -/
def getAttr (e : XElem) (k : String) : Option String :=
  (e.attrs.find? (fun p => p.1 == k)).map (·.2)

/-- `elem.findall(tag)` restricted to direct children, as ET does. -/
def childrenNamed (e : XElem) (t : String) : List XElem :=
  e.children.filter (fun c => c.tag == t)

/-- `elem.find(tag)`: the first direct child with the tag (never the element
itself). -/
def findChild (e : XElem) (t : String) : Option XElem :=
  e.children.find? (fun c => c.tag == t)

/-- `elem.findtext(tag)`: `none` when no such child, `""` when the child has
no text. -/
def findtext (e : XElem) (t : String) : Option String :=
  (findChild e t).map (fun c => c.text.getD "")

/-- Input to the response parser: either a well-formed document or one on
which `ET.fromstring` raises. -/
inductive XmlInput where
  | malformed
  | doc (root : XElem)

/-- The exceptions of src/jackett_client.py, plus the `ValueError` that
`search` raises on an empty query. -/
inductive JErr where
  | valueError
  | connectionError
  | apiError
  | parseError
  | searchError
deriving DecidableEq

/-- A parsed release item (the dict built at lines 183-191). -/
structure Release where
  title : Option String
  link : String
  size : Int
  seeders : Int
  leechers : Int
  pub_date : Option String
  indexer : String
deriving DecidableEq

/-- `int(s) if s and s.isdigit() else 0` (lines 186-188). -/
def torznabIntField : Option String → Int
  | some s => if isDigits s.toList then (natOfDigits s.toList : Int) else 0
  | none => 0

/-- State of the `for attr in item.findall('torznab:attr')` loop
(lines 142-165; the `peers` branch there is a `pass`). -/
structure AttrScan where
  size_str : Option String
  seeders_str : Option String
  leechers_str : Option String

/-- The attribute-scanning loop.  A present attribute with a missing
`value` stores `None`, which Python cannot distinguish from the initial
`None`, so the collapsed `Option String` state is exact. -/
def scanAttrs (tattrs : List XElem) : AttrScan :=
  tattrs.foldl (fun st a =>
    let name := getAttr a "name"
    let value := getAttr a "value"
    if name == some "size" then { st with size_str := value }
    else if name == some "seeders" then { st with seeders_str := value }
    else if name == some "leechers" then { st with leechers_str := value }
    else st) ⟨none, none, none⟩

/-- `item.find('torznab:attr[@name="peers"]')`. -/
def findPeersAttr (tattrs : List XElem) : Option XElem :=
  tattrs.find? (fun a => getAttr a "name" == some "peers")

/-- Lines 128-130: the magnet URL of the first
`type="application/x-bittorrent"` enclosure carrying a `url` attribute,
provided it starts with `magnet:`. -/
def enclosureLink (it : XElem) : Option String :=
  match (childrenNamed it "enclosure").find? (fun e =>
    getAttr e "type" == some "application/x-bittorrent" && (getAttr e "url").isSome) with
  | some e =>
    if pyStartsWith ("magnet:".toList) ((getAttr e "url").getD "").toList then
      some ((getAttr e "url").getD "")
    else none
  | none => none

/-- Lines 133-136: the `<link>` child's text, when truthy and starting
with `http` or `magnet:`. -/
def linkTagLink (it : XElem) : Option String :=
  match findtext it "link" with
  | some lt =>
    if !lt.toList.isEmpty &&
        (pyStartsWith ("http".toList) lt.toList ||
         pyStartsWith ("magnet:".toList) lt.toList) then some lt
    else none
  | none => none

/-- Link selection (lines 126-140): prefer the enclosure magnet, fall back
to the `<link>` child, and yield `none` (skip the item) otherwise. -/
def itemLink (it : XElem) : Option String :=
  match enclosureLink it with
  | some u => some u
  | none => linkTagLink it

/-- One `<item>` (lines 124-192): `none` models the `continue` for an item
with no usable link. -/
def parseItem (it : XElem) (indexer_name : String) : Option Release :=
  let title := findtext it "title"
  match itemLink it with
  | none => none
  | some link =>
    let tattrs := childrenNamed it "torznab:attr"
    let st := scanAttrs tattrs
    let leechers_str : Option String :=
      match st.leechers_str with
      | some v => some v
      | none =>
        match findPeersAttr tattrs, st.seeders_str with
        | some pa, some sstr =>
          match (getAttr pa "value").bind pyParseInt, pyParseInt sstr with
          | some pv, some sv => some (natDigitsStr ((max 0 (pv - sv)).toNat))
          | _, _ => some "0"
        | _, _ => none
    some { title := title
           link := link
           size := torznabIntField st.size_str
           seeders := torznabIntField st.seeders_str
           leechers := torznabIntField leechers_str
           pub_date := findtext it "pubDate"
           indexer := indexer_name }

/-- `_parse_torznab_response` (lines 87-200).  Note that
`root.find("error")` inspects only the children of the root element, so a
document whose root element itself is `<error>` is NOT reported as an API
error. -/
def parse_torznab_response (x : XmlInput) (indexer_name : String) :
    Except JErr (List Release) :=
  match x with
  | .malformed => .error .parseError
  | .doc root =>
    match findChild root "error" with
    | some _ => .error .apiError
    | none =>
      match findChild root "channel" with
      | none => .ok []
      | some channel =>
        .ok ((childrenNamed channel "item").filterMap
          (fun it => parseItem it indexer_name))

/-- Outcome of one indexer's HTTP query in `search`: the three transport
except-branches (HTTPError / Timeout / RequestException, lines 266-280)
behave identically, so they collapse into one case. -/
inductive IndexerResponse where
  | transportError
  | body (x : XmlInput)

/-- The per-indexer loop of `search` (lines 243-290), carrying
`all_results` and `successful_indexer_queries`.  A failure is re-raised
only when the indexer is `all` and it is the only effective indexer;
`lenEff` is the precomputed `len(effective_indexers)`. -/
def searchLoop (lenEff : Nat) (fetch : String → IndexerResponse)
    (acc : List Release) (succ : Nat) : List String → Except JErr (List Release × Nat)
  | [] => .ok (acc, succ)
  | id :: rest =>
    match fetch id with
    | .transportError =>
      if id == "all" && lenEff == 1 then .error .connectionError
      else searchLoop lenEff fetch acc succ rest
    | .body x =>
      match parse_torznab_response x id with
      | .ok rs => searchLoop lenEff fetch (acc ++ rs) (succ + 1) rest
      | .error .apiError =>
        if id == "all" && lenEff == 1 then .error .apiError
        else searchLoop lenEff fetch acc succ rest
      | .error .parseError =>
        if id == "all" && lenEff == 1 then .error .parseError
        else searchLoop lenEff fetch acc succ rest
      | .error e => .error e

/-- `JackettClient.search` (lines 202-296) over query, the optional
explicit indexer list, and the per-indexer responses. -/
def search (query : String) (indexers : Option (List String))
    (fetch : String → IndexerResponse) : Except JErr (List Release) :=
  if query = "" then .error .valueError
  else
    let effective :=
      match indexers with
      | none => ["all"]
      | some l => if l.isEmpty then ["all"] else l
    match searchLoop effective.length fetch [] 0 effective with
    | .error e => .error e
    | .ok r =>
      if decide (0 < effective.length) && r.2 == 0 then .error .searchError
      else .ok r.1

/-- Results one indexer contributes to a search (empty on any failure). -/
def indexerResults (fetch : String → IndexerResponse) (id : String) : List Release :=
  match fetch id with
  | .body x =>
    match parse_torznab_response x id with
    | .ok rs => rs
    | .error _ => []
  | .transportError => []

/-- Whether one indexer's query succeeds (counts toward
`successful_indexer_queries`). -/
def indexerOk (fetch : String → IndexerResponse) (id : String) : Bool :=
  match fetch id with
  | .body x =>
    match parse_torznab_response x id with
    | .ok _ => true
    | .error _ => false
  | .transportError => false

/-! ## Command dispatcher (src/telegram_utils.py, `process_messages` body,
lines 590-748) -/

/-- A call into a backend service client. -/
inductive Backend where
  | diskSpace
  | listTorrents
  | jellyfinRecent
  | jellyfinRecentDetailed
  | jellyfinLibraries
  | jellyfinStatus
  | youtubeDownload (url : List Char)
  | addMagnet (magnet : List Char)
deriving DecidableEq

/-- An observable action of the dispatcher: a fixed denial message, an
informational reply (tagged by which send it is), or a backend call. -/
inductive Event where
  | denial
  | reply (tag : String)
  | backend (b : Backend)
deriving DecidableEq

/-- Number of denial notifications among the emitted events. -/
def denialCount (evs : List Event) : Nat :=
  evs.countP (fun e => e == Event.denial)

/-- Number of backend calls among the emitted events. -/
def backendCount (evs : List Event) : Nat :=
  evs.countP (fun e => match e with | .backend _ => true | _ => false)

/-- `keyboard_command_map.get(text, text)` (lines 609-620). -/
def keyboard_command_map (t : List Char) : List Char :=
  if t == ("📊 Status do Servidor".toList) then ("/status".toList)
  else if t == ("📦 Listar Torrents".toList) then ("/qtorrents".toList)
  else if t == ("💾 Espaço em Disco".toList) then ("/qespaco".toList)
  else if t == ("🎬 Itens Recentes".toList) then ("/recent".toList)
  else if t == ("🎭 Recentes Detalhado".toList) then ("/recentes".toList)
  else if t == ("📚 Bibliotecas".toList) then ("/libraries".toList)
  else if t == ("🎥 YouTube".toList) then ("/youtube".toList)
  else if t == ("❓ Ajuda".toList) then ("/start".toList)
  else t

/-- Whether `sub` occurs as a contiguous substring. -/
def hasSub (pat : List Char) : List Char → Bool
  | [] => pat.isEmpty
  | c :: cs => pat.isPrefixOf (c :: cs) || hasSub pat cs

/-- Modelled from the spec: `is_youtube_url`, which the dispatcher imports
from the video-downloader module, is absent from the sources (only its
caller at src/telegram_utils.py line 717 survives); the spec describes it
as recognizing "a recognized video-hosting URL pattern" covering
`youtube.com/...` and `youtu.be/...` forms. -/
def is_youtube_url (t : List Char) : Bool :=
  hasSub ("youtube.com/".toList) t || hasSub ("youtu.be/".toList) t

/-- The per-message command/link dispatch, abstracted over the
precomputed `is_authorized` flag (line 607) and over whether a Jellyfin
manager is configured.  Follows the `if/elif` chain of lines 623-748 in
order; backend results are not modelled, only the calls and replies. -/
def processCommandCore (is_authorized : Bool) (jellyfin : Bool)
    (text : List Char) : List Event :=
  if text == ("/start".toList) || text == ("❓ Ajuda".toList) then
    [.reply "welcome"]
  else if text == ("/qespaco".toList) then
    [.backend .diskSpace, .reply "disk"]
  else if text == ("/qtorrents".toList) then
    if !is_authorized then [.denial]
    else [.backend .listTorrents, .reply "torrents"]
  else if text == ("/recent".toList) && jellyfin then
    if !is_authorized then [.denial]
    else [.backend .jellyfinRecent, .reply "recent"]
  else if text == ("/recentes".toList) && jellyfin then
    if !is_authorized then [.denial]
    else [.reply "searching", .backend .jellyfinRecentDetailed, .reply "recentes"]
  else if text == ("/libraries".toList) && jellyfin then
    if !is_authorized then [.denial]
    else [.backend .jellyfinLibraries, .reply "libraries"]
  else if text == ("/status".toList) && jellyfin then
    if !is_authorized then [.denial]
    else [.backend .jellyfinStatus, .reply "status"]
  else if text == ("/youtube".toList) then
    if !is_authorized then [.denial]
    else [.reply "youtube-help"]
  else if is_youtube_url text then
    if !is_authorized then [.denial]
    else [.backend (.youtubeDownload text)]
  else
    (magnetFindAll text).foldr (fun m acc =>
      (if !is_authorized then [Event.denial]
       else [.reply "adding", .backend (.addMagnet m), .reply "add-result"]) ++ acc) []

/-- `is_authorized = not AUTHORIZED_USERS or user_id in AUTHORIZED_USERS`
(line 607) followed by the dispatch chain; `users` is `AUTHORIZED_USERS`
after the keyboard-label substitution has been applied to `text`. -/
def processCommand (users : List (List Char)) (user_id : List Char)
    (jellyfin : Bool) (text0 : List Char) : List Event :=
  processCommandCore (users.isEmpty || users.contains user_id) jellyfin
    (keyboard_command_map text0)

/-- The authorization-gated commands of the dispatch chain (every denial
site except the per-magnet and per-URL link denials). -/
def gatedCommands (jellyfin : Bool) : List (List Char) :=
  [("/qtorrents".toList)] ++
  (if jellyfin then
    [("/recent".toList), ("/recentes".toList), ("/libraries".toList), ("/status".toList)]
   else []) ++
  [("/youtube".toList)]

/-! ## Message Source polls -/

/-- A `getUpdates` entry as read by src/telegram_utils.py lines 590-599:
`update.get('update_id')`, `message.get('text','')`,
`message.get('chat',{}).get('id')`, `message.get('from',{}).get('id','')`. -/
structure TgUpdate where
  update_id : Option Nat
  text : List Char
  chat_id : Option Int
  from_id : Option Int
deriving DecidableEq

/-- `user_id = str(message.get('from', {}).get('id', ''))`. -/
def tgUserId (u : TgUpdate) : List Char :=
  match u.from_id with
  | some i => (toString i).toList
  | none => []

/-- The skip test of line 601 (after `strip()`): an update is handled only
when it has an id, nonempty stripped text, a chat id and a user id. -/
def tgWellFormed (u : TgUpdate) : Bool :=
  u.update_id.isSome && !(pyStrip u.text).isEmpty && u.chat_id.isSome &&
    !(tgUserId u).isEmpty

/-- The update ids the dispatcher actually handles in a batch. -/
def tgHandledIds (updates : List TgUpdate) : List Nat :=
  (updates.filter tgWellFormed).map (fun u => u.update_id.getD 0)

/-- Per-update step of the `for update in updates` loop (lines 590-748):
skip malformed updates, otherwise advance `new_last_id` and dispatch. -/
def tgHandleUpdate (users : List (List Char)) (jellyfin : Bool)
    (acc : Nat × List Event) (u : TgUpdate) : Nat × List Event :=
  match u.update_id with
  | none => acc
  | some upd_id =>
    let text := pyStrip u.text
    if text.isEmpty || !u.chat_id.isSome || (tgUserId u).isEmpty then acc
    else
      (max acc.1 upd_id, acc.2 ++ processCommand users (tgUserId u) jellyfin text)

/-- The transport outcome of one `getUpdates` call: a raised
`RequestException` (or a later `resp.json()` failure), or a decoded JSON
body with its `ok` flag and `result` list. -/
inductive TgFetch where
  | transportError
  | response (ok : Bool) (updates : List TgUpdate)

/-- The runtime error raised by reading a local variable that was never
assigned (Python `UnboundLocalError`). -/
inductive PyErr where
  | unboundLocal
deriving DecidableEq

/-- src/telegram_utils.py `process_messages` (lines 557-762).  `new_last_id`
is first assigned at line 588, inside the `try`; the transport-failure
handlers at lines 755-760 only log and then fall through to
`return new_last_id` at line 762, which therefore raises
`UnboundLocalError` — modelled as `.error .unboundLocal`. -/
def tg_process_messages (token : List Char) (users : List (List Char))
    (jellyfin : Bool) (fetch : TgFetch) (last_update_id : Nat) :
    Except PyErr (Nat × List Event) :=
  if token.isEmpty then .ok (last_update_id, [])
  else
    match fetch with
    | .transportError => .error .unboundLocal
    | .response ok updates =>
      if !ok then .ok (last_update_id, [])
      else .ok (updates.foldl (tgHandleUpdate users jellyfin) (last_update_id, []))

/-- A `getUpdates` entry as read by src/main.py lines 71-75 (an update
without `update_id` would raise a `KeyError` into the catch-all handler
and is outside the normal shape, so the id is mandatory here). -/
structure MainUpdate where
  update_id : Nat
  text : List Char
  chat_id : Option Int
deriving DecidableEq

/-- The update ids of a batch. -/
def batchIds (updates : List MainUpdate) : List Nat :=
  updates.map (·.update_id)

/-- Per-update work of src/main.py lines 71-97: add every matched magnet
(those passing the redundant `startswith("magnet:")` filter, which is
case-sensitive) and notify, then advance `new_last_id` unconditionally. -/
def mainHandleUpdate (acc : Nat × List Event) (u : MainUpdate) : Nat × List Event :=
  let evs :=
    if !u.text.isEmpty && u.chat_id.isSome then
      ((magnetFindAll u.text).filter
          (fun m => pyStartsWith ("magnet:".toList) m)).foldr
        (fun m acc2 => [Event.backend (.addMagnet m), Event.reply "magnet-added"] ++ acc2) []
    else []
  (max acc.1 u.update_id, acc.2 ++ evs)

/-- Transport outcome for src/main.py's poll. -/
inductive MainFetch where
  | transportError
  | response (ok : Bool) (updates : List MainUpdate)

/-- src/main.py `process_messages` (lines 56-103): on any exception it
sends a warning message and returns the cursor unchanged; otherwise it
handles the batch and returns the maximum of the old cursor and all
update ids. -/
def main_process_messages (fetch : MainFetch) (last_update_id : Nat) :
    Nat × List Event :=
  match fetch with
  | .transportError => (last_update_id, [.reply "warn-error"])
  | .response ok updates =>
    if !ok then (last_update_id, [])
    else updates.foldl mainHandleUpdate (last_update_id, [])

/-- The cursor returned by src/main.py's poll on a successful batch. -/
def mainNewCursor (c : Nat) (updates : List MainUpdate) : Nat :=
  (main_process_messages (.response true updates) c).1

/-- The cursor returned by src/telegram_utils.py's poll on a successful
batch (the `.ok` value's first component). -/
def tgNewCursor (c : Nat) (updates : List TgUpdate) : Nat :=
  (updates.foldl (tgHandleUpdate [] false) (c, [])).1

/-- The update ids present in a batch received by src/telegram_utils.py's
poll (an update carrying no id has no identity to acknowledge). -/
def tgBatchIds (updates : List TgUpdate) : List Nat :=
  updates.filterMap (fun u => u.update_id)

/-- All update ids the telegram_utils dispatcher handles across a sequence
of polls (skipped updates are fetched but never handled). -/
def tgProcessedIds (batches : List (List TgUpdate)) : List Nat :=
  (batches.map tgHandledIds).flatten

/-- The offset contract for src/telegram_utils.py's loop: each poll feeds
the returned cursor back in, and the queue only returns updates with ids
greater than that cursor.  A skipped update's id can exceed the returned
cursor, so the same update may legitimately reappear in later batches. -/
def tgOffsetContract (c : Nat) : List (List TgUpdate) → Bool
  | [] => true
  | b :: bs =>
    (tgBatchIds b).all (fun i => c < i) && tgOffsetContract (tgNewCursor c b) bs

/-- Cursor evolution across repeated polls that feed the returned cursor
back in (src/main.py's loop). -/
def runCursors (c : Nat) : List (List MainUpdate) → Nat
  | [] => c
  | b :: bs => runCursors (mainNewCursor c b) bs

/-- The offset contract of the external message queue: a poll with cursor
`c` (offset `c + 1`) only returns updates with ids greater than `c`. -/
def offsetContract (c : Nat) : List (List MainUpdate) → Bool
  | [] => true
  | b :: bs => (batchIds b).all (fun i => c < i) && offsetContract (mainNewCursor c b) bs

/-- All update ids processed across a sequence of polls. -/
def processedIds (batches : List (List MainUpdate)) : List Nat :=
  (batches.map batchIds).flatten

/-! ## Concrete fixtures used by the theorems below -/

/-- The spec's magnet-extraction example text (40-hex hash). -/
def magnetExampleText : List Char :=
  "grab this magnet:?xt=urn:btih:aaaaaaaaaaaaaaaaaaaaaaaaaaaaaaaaaaaaaaaa&dn=Foo".toList

/-- The single link the example text should yield. -/
def magnetExampleLink : List Char :=
  "magnet:?xt=urn:btih:aaaaaaaaaaaaaaaaaaaaaaaaaaaaaaaaaaaaaaaa&dn=Foo".toList

/-- The example text up to and including the literal magnet prefix. -/
def magnetExamplePre : List Char :=
  "grab this magnet:?xt=urn:btih:".toList

/-- The example text after the hash. -/
def magnetExamplePost : List Char :=
  "&dn=Foo".toList

/-- The minimal valid Torznab `<item>` of the spec's round-trip example. -/
def torznabExampleItem : XElem :=
  .mk "item" [] [
    .mk "title" [] [] (some "Ubuntu ISO"),
    .mk "enclosure"
      [("type", "application/x-bittorrent"),
       ("url", "magnet:?xt=urn:btih:aaaaaaaaaaaaaaaaaaaaaaaaaaaaaaaaaaaaaaaa")] [] none,
    .mk "torznab:attr" [("name", "size"), ("value", "1073741824")] [] none,
    .mk "torznab:attr" [("name", "seeders"), ("value", "10")] [] none,
    .mk "torznab:attr" [("name", "leechers"), ("value", "2")] [] none] none

/-- A minimal valid Torznab document containing the example item. -/
def torznabExampleDoc : XmlInput :=
  .doc (.mk "rss" [] [.mk "channel" [] [torznabExampleItem] none] none)

/-- The release the example item should parse to (with indexer tag
`myindexer`). -/
def torznabExampleRelease : Release :=
  { title := some "Ubuntu ISO"
    link := "magnet:?xt=urn:btih:aaaaaaaaaaaaaaaaaaaaaaaaaaaaaaaaaaaaaaaa"
    size := 1073741824
    seeders := 10
    leechers := 2
    pub_date := none
    indexer := "myindexer" }

/-- A Torznab error response: the root element is
`<error code="100" description="Incorrect user credentials"/>`. -/
def torznabErrorDoc : XmlInput :=
  .doc (.mk "error" [("code", "100"), ("description", "Incorrect user credentials")] [] none)

/-- An `<item>` carrying `seeders` and `peers` but no `leechers`
attribute, to exercise the `leechers = max(0, peers - seeders)`
derivation. -/
def torznabPeersItem : XElem :=
  .mk "item" [] [
    .mk "title" [] [] (some "Peers Only"),
    .mk "enclosure"
      [("type", "application/x-bittorrent"),
       ("url", "magnet:?xt=urn:btih:bbbbbbbbbbbbbbbbbbbbbbbbbbbbbbbbbbbbbbbb")] [] none,
    .mk "torznab:attr" [("name", "seeders"), ("value", "7")] [] none,
    .mk "torznab:attr" [("name", "peers"), ("value", "10")] [] none] none

/-- Fetch function for the isolated-parse-failure scenario: indexer `ix1`
returns malformed XML, indexer `ix2` a valid document. -/
def twoIndexerFetch (id : String) : IndexerResponse :=
  if id = "ix1" then .body .malformed else .body torznabExampleDoc

/-! ## Lemmas about the Status Diff Monitor -/

theorem countFor_append (h : String) (a b : List Notification) :
    countFor h (a ++ b) = countFor h a + countFor h b := by
  induction a with
  | nil => simp [countFor]
  | cons n ns ih => simp [countFor, ih]; omega

theorem processTorrent_completed (s : MonitorState) (t : Torrent) :
    ((processTorrent s t).1).completed =
      if monitorTrigger s t then t.hash :: s.completed else s.completed := rfl

theorem processTorrent_notifs (s : MonitorState) (t : Torrent) :
    (processTorrent s t).2 = if monitorTrigger s t then [⟨t.hash, t.name⟩] else [] := rfl

theorem memStr_processTorrent_of (s : MonitorState) (t : Torrent) (h : String)
    (hc : memStr h s.completed = true) :
    memStr h ((processTorrent s t).1).completed = true := by
  rw [processTorrent_completed]
  split
  · simp [memStr, hc]
  · exact hc

theorem memStr_processPoll_of (h : String) :
    ∀ (ts : List Torrent) (s : MonitorState),
      memStr h s.completed = true →
      memStr h ((processPoll s ts).1).completed = true := by
  intro ts
  induction ts with
  | nil => intro s hc; exact hc
  | cons t ts ih =>
    intro s hc
    exact ih _ (memStr_processTorrent_of s t h hc)

theorem memStr_processPoll_eq (h : String) :
    ∀ (ts : List Torrent) (s : MonitorState),
      memStr h s.completed = false →
      memStr h ((processPoll s ts).1).completed = hasDLComp h s ts := by
  intro ts
  induction ts with
  | nil => intro s hc; exact hc.trans rfl
  | cons t ts ih =>
    intro s hc
    have hpoll : ((processPoll s (t :: ts)).1) = (processPoll (processTorrent s t).1 ts).1 := rfl
    have hhas : hasDLComp h s (t :: ts)
        = ((t.hash == h && dlCompObserved s t) || hasDLComp h (processTorrent s t).1 ts) := rfl
    by_cases hh : (t.hash == h) = true
    · have hhash : t.hash = h := by simpa using hh
      by_cases hobs : dlCompObserved s t = true
      · have htrig : monitorTrigger s t = true := by
          have hmem : memStr t.hash s.completed = false := by rwa [hhash]
          simp [monitorTrigger, hobs, hmem]
        have h1 : memStr h ((processTorrent s t).1).completed = true := by
          rw [processTorrent_completed, if_pos htrig]
          simp [memStr, hh]
        rw [hpoll, hhas, memStr_processPoll_of h ts _ h1]
        simp [hh, hobs]
      · have hobs' : dlCompObserved s t = false := by simpa using hobs
        have htrig : monitorTrigger s t = false := by
          simp [monitorTrigger, hobs']
        have h1 : memStr h ((processTorrent s t).1).completed = false := by
          rw [processTorrent_completed, if_neg (by simp [htrig])]
          exact hc
        rw [hpoll, hhas, ih _ h1]
        simp [hobs']
    · have hh' : (t.hash == h) = false := by simpa using hh
      have h1 : memStr h ((processTorrent s t).1).completed = false := by
        rw [processTorrent_completed]
        split
        · simpa [memStr, hh'] using hc
        · exact hc
      rw [hpoll, hhas, ih _ h1]
      simp [hh']

theorem countFor_processPoll (h : String) :
    ∀ (ts : List Torrent) (s : MonitorState),
      countFor h (processPoll s ts).2 =
        if memStr h s.completed then 0 else if hasDLComp h s ts then 1 else 0 := by
  intro ts
  induction ts with
  | nil =>
    intro s
    simp [processPoll, countFor, hasDLComp]
  | cons t ts ih =>
    intro s
    have hsplit : (processPoll s (t :: ts)).2
        = (processTorrent s t).2 ++ (processPoll (processTorrent s t).1 ts).2 := rfl
    have hhas : hasDLComp h s (t :: ts)
        = ((t.hash == h && dlCompObserved s t) || hasDLComp h (processTorrent s t).1 ts) := rfl
    rw [hsplit, countFor_append, hhas]
    by_cases hc : memStr h s.completed = true
    · have hhead : countFor h (processTorrent s t).2 = 0 := by
        rw [processTorrent_notifs]
        by_cases hh : (t.hash == h) = true
        · have hhash : t.hash = h := by simpa using hh
          have htg : monitorTrigger s t = false := by
            have hmem : memStr t.hash s.completed = true := by rwa [hhash]
            simp [monitorTrigger, hmem]
          simp [htg, countFor]
        · have hh' : (t.hash == h) = false := by simpa using hh
          split <;> simp [countFor, hh']
      rw [hhead, ih _, memStr_processTorrent_of s t h hc]
      simp [hc]
    · have hc' : memStr h s.completed = false := by simpa using hc
      by_cases hh : (t.hash == h) = true
      · have hhash : t.hash = h := by simpa using hh
        by_cases hobs : dlCompObserved s t = true
        · have htrig : monitorTrigger s t = true := by
            have hmem : memStr t.hash s.completed = false := by rwa [hhash]
            simp [monitorTrigger, hobs, hmem]
          have hhead : countFor h (processTorrent s t).2 = 1 := by
            rw [processTorrent_notifs, if_pos htrig]
            simp [countFor, hh]
          have h1 : memStr h ((processTorrent s t).1).completed = true := by
            rw [processTorrent_completed, if_pos htrig]
            simp [memStr, hh]
          rw [hhead, ih _, h1]
          simp [hc', hh, hobs]
        · have hobs' : dlCompObserved s t = false := by simpa using hobs
          have htrig : monitorTrigger s t = false := by
            simp [monitorTrigger, hobs']
          have hhead : countFor h (processTorrent s t).2 = 0 := by
            rw [processTorrent_notifs, if_neg (by simp [htrig])]
            simp [countFor]
          have h1 : memStr h ((processTorrent s t).1).completed = false := by
            rw [processTorrent_completed, if_neg (by simp [htrig])]
            exact hc'
          rw [hhead, ih _, h1]
          simp [hc', hobs']
      · have hh' : (t.hash == h) = false := by simpa using hh
        have hhead : countFor h (processTorrent s t).2 = 0 := by
          rw [processTorrent_notifs]
          split <;> simp [countFor, hh']
        have h1 : memStr h ((processTorrent s t).1).completed = memStr h s.completed := by
          rw [processTorrent_completed]
          split
          · simp [memStr, hh']
          · rfl
        rw [hhead, ih _, h1, hc']
        simp [hc', hh']

theorem countFor_runMonitor (h : String) :
    ∀ (ps : List (List Torrent)) (s : MonitorState),
      countFor h (runMonitor s ps).2 =
        if memStr h s.completed then 0 else if hasDLCompRun h s ps then 1 else 0 := by
  intro ps
  induction ps with
  | nil => intro s; simp [runMonitor, countFor, hasDLCompRun]
  | cons p ps ih =>
    intro s
    have hsplit : (runMonitor s (p :: ps)).2
        = (processPoll s p).2 ++ (runMonitor (processPoll s p).1 ps).2 := rfl
    have hhas : hasDLCompRun h s (p :: ps)
        = (hasDLComp h s p || hasDLCompRun h (processPoll s p).1 ps) := rfl
    rw [hsplit, countFor_append, hhas, countFor_processPoll, ih _]
    by_cases hc : memStr h s.completed = true
    · rw [memStr_processPoll_of h p s hc]
      simp [hc]
    · have hc' : memStr h s.completed = false := by simpa using hc
      by_cases hp : hasDLComp h s p = true
      · rw [memStr_processPoll_eq h p s hc', hp]
        simp [hc', hp]
      · have hp' : hasDLComp h s p = false := by simpa using hp
        rw [memStr_processPoll_eq h p s hc', hp']
        simp [hc', hp']

/-! ## Claim C1 -/

/-- C1: for every torrent hash `h`, the status-diff monitor emits a
"download completed" notification at most once over the whole run, and
exactly once as soon as some poll observes `h` moving from a recorded
downloading-class state to a completion-class state; in particular no
later transition of `h` (including a second downloading-to-completed
cycle) emits a second notification. -/
theorem monitor_completion_notifies_exactly_once
    (init : List Torrent) (polls : List (List Torrent)) (h : String) :
    countFor h (monitorNotifications init polls) ≤ 1 ∧
    (hasDLCompRun h (initMonitorState init) polls = true →
      countFor h (monitorNotifications init polls) = 1) := by
  have hc0 : memStr h (initMonitorState init).completed = false := rfl
  have base := countFor_runMonitor h polls (initMonitorState init)
  rw [hc0] at base
  simp only [if_false, Bool.false_eq_true] at base
  constructor
  · rw [monitorNotifications, base]
    split <;> omega
  · intro hrun
    rw [monitorNotifications, base, if_pos hrun]

/-- Witness for C1: a torrent seen downloading, then seeding twice, yields
exactly one completion notification. -/
theorem monitor_completion_notifies_exactly_once_w :
    countFor "H" (monitorNotifications [⟨"H", "downloading", "Movie"⟩]
      [[⟨"H", "seeding", "Movie"⟩], [⟨"H", "seeding", "Movie"⟩]]) = 1 :=
  (monitor_completion_notifies_exactly_once _ _ _).2 (by decide)

/-! ## Claims C7 and C8 (Notifier) -/

/-- C7: whenever structured-markup (HTML) mode is requested but the text's
opening-tag count differs from its closing-tag count, `send_telegram`
silently falls back to plain text (`parse_mode = None`) and still hands
the message to the transport. -/
theorem send_telegram_markup_fallback (token chat_id : String) (msg : List Char)
    (pm : Option String) (htok : ¬token = "") (hchat : ¬chat_id = "")
    (hhtml : isHtmlMode pm = true)
    (hneq : countOpenTags msg ≠ countCloseTags msg) :
    ∃ req, send_telegram token chat_id msg pm = some req ∧ req.parseMode = none := by
  unfold send_telegram
  rw [if_neg htok, if_neg hchat]
  have hbeq : (countOpenTags msg == countCloseTags msg) = false := by
    simpa using hneq
  simp [hhtml, hbeq]

/-- Witness for C7: one opening and zero closing tags is delivered in
plain-text mode. -/
theorem send_telegram_markup_fallback_w :
    ∃ req, send_telegram "t" "c" ("<b>unclosed".toList) (some "HTML") = some req ∧
      req.parseMode = none :=
  send_telegram_markup_fallback _ _ _ _ (by decide) (by decide) (by decide) (by decide)

/-- C8: the transmitted text never exceeds 4096 characters; a longer text
is cut to its first 4093 characters plus an ellipsis marker, and a text at
or under the limit is transmitted unchanged. -/
theorem send_telegram_truncates (token chat_id : String) (msg : List Char)
    (pm : Option String) (req : TgRequest)
    (hreq : send_telegram token chat_id msg pm = some req) :
    req.text.length ≤ 4096 ∧
    (4096 < msg.length →
      req.text = msg.take 4093 ++ ("...".toList) ∧ ("...".toList) <:+ req.text) ∧
    (msg.length ≤ 4096 → req.text = msg) := by
  unfold send_telegram at hreq
  split at hreq
  · cases hreq
  · split at hreq
    · cases hreq
    · cases hreq
      by_cases hlen : 4096 < msg.length
      · have hif : (if msg.length > 4096 then msg.take 4093 ++ ("...".toList) else msg)
            = msg.take 4093 ++ ("...".toList) := if_pos hlen
        have hlen2 : (msg.take 4093 ++ ("...".toList)).length = 4096 := by
          have ht : (msg.take 4093).length = 4093 := by
            rw [List.length_take]; omega
          simp [List.length_append, ht]
        refine ⟨?_, ?_, ?_⟩
        · show (if msg.length > 4096 then msg.take 4093 ++ ("...".toList) else msg).length ≤ 4096
          rw [hif, hlen2]
        · intro _
          constructor
          · exact hif
          · show ("...".toList) <:+
                (if msg.length > 4096 then msg.take 4093 ++ ("...".toList) else msg)
            rw [hif]
            exact List.suffix_append _ _
        · intro hle
          omega
      · have hle : msg.length ≤ 4096 := by omega
        have hif : (if msg.length > 4096 then msg.take 4093 ++ ("...".toList) else msg)
            = msg := if_neg hlen
        refine ⟨?_, ?_, ?_⟩
        · show (if msg.length > 4096 then msg.take 4093 ++ ("...".toList) else msg).length ≤ 4096
          rw [hif]; omega
        · intro hgt
          exact absurd hgt hlen
        · intro _
          exact hif

/-- Evaluation of `send_telegram` on any 4097-character text (kept
abstract so that no 4097-deep list reduction is needed). -/
theorem send_telegram_on_long (msg : List Char) (hlen : msg.length = 4097) :
    send_telegram "t" "c" msg none = some ⟨msg.take 4093 ++ ("...".toList), none⟩ := by
  unfold send_telegram
  rw [if_neg (show ¬("t" : String) = "" by decide),
      if_neg (show ¬("c" : String) = "" by decide)]
  simp only [show isHtmlMode none = false from rfl, Bool.false_and, Bool.false_eq_true,
    if_false, hlen]
  norm_num

/-- Witness for C8: a 4097-character text is delivered with at most 4096
characters ending in the ellipsis marker. -/
theorem send_telegram_truncates_w :
    ∃ req, send_telegram "t" "c" (List.replicate 4097 'a') none = some req ∧
      req.text.length ≤ 4096 ∧ ("...".toList) <:+ req.text := by
  have hval := send_telegram_on_long (List.replicate 4097 'a') (List.length_replicate 4097 'a')
  refine ⟨_, hval, ?_, ?_⟩
  · exact (send_telegram_truncates _ _ _ _ _ hval).1
  · refine ((send_telegram_truncates _ _ _ _ _ hval).2.1 ?_).2
    rw [List.length_replicate]
    omega

/-! ## Claim C4 (poll transport failure) -/

/-- C4: on a transport failure, src/telegram_utils.py's poll does NOT
return the unchanged cursor — its except-handlers fall through to
`return new_last_id` with `new_last_id` never assigned, raising
`UnboundLocalError`; src/main.py's poll, in contrast, logs a warning
notification and returns the cursor unchanged as the claim describes. -/
theorem poll_transport_failure_raises :
    tg_process_messages ("tok".toList) [] false .transportError 7 = .error .unboundLocal ∧
    main_process_messages .transportError 7 = (7, [.reply "warn-error"]) :=
  ⟨rfl, rfl⟩

/-! ## Claim C5 (Torznab round-trip and error root) -/

/-- C5: the minimal valid Torznab item parses to exactly one release with
`size = 1073741824`, `seeders = 10`, `leechers = 2` and the supplied
indexer tag; but a response whose root element is
`<error code="..." description="..."/>` parses to an EMPTY result list
instead of raising the API-error condition, because `root.find("error")`
searches only the root's children and never matches the root element
itself. -/
theorem torznab_parse_example_and_error_root :
    parse_torznab_response torznabExampleDoc "myindexer" = .ok [torznabExampleRelease] ∧
    parse_torznab_response torznabErrorDoc "myindexer" = .ok [] :=
  ⟨rfl, rfl⟩

/-! ## Lemmas about magnet extraction -/

theorem goMagnet_of_noStart : ∀ (fuel : Nat) (s : List Char),
    noStart s = true → goMagnet fuel s = [] := by
  intro fuel
  induction fuel with
  | zero => intro s _; rfl
  | succ fuel ih =>
    intro s hs
    match s with
    | [] => rfl
    | c :: cs =>
      have hs' : ((tryMagnet (c :: cs)).isNone && noStart cs) = true := hs
      rw [Bool.and_eq_true] at hs'
      have h3 : tryMagnet (c :: cs) = none := by
        cases htm : tryMagnet (c :: cs)
        · rfl
        · rw [htm] at hs'; cases hs'.1
      unfold goMagnet
      rw [h3]
      exact ih cs hs'.2

theorem tryMagnet_not_m (c : Char) (cs : List Char) (hc : ciEq 'm' c = false) :
    tryMagnet (c :: cs) = none := by
  unfold tryMagnet
  rw [show magnetPat = 'm' :: ("agnet:?xt=urn:btih:".toList) from rfl]
  unfold ciMatch
  rw [hc]
  simp

theorem hex_not_m (c : Char) (hc : isHexChar c = true) : ciEq 'm' c = false := by
  by_cases h1 : c = 'm'
  · subst h1; cases hc
  · by_cases h2 : c = 'M'
    · subst h2; cases hc
    · simp [ciEq, upperOf, h1, h2]

theorem noStart_append_of_heads :
    ∀ (xs : List Char), (∀ c ∈ xs, ciEq 'm' c = false) →
      ∀ (t : List Char), noStart t = true → noStart (xs ++ t) = true := by
  intro xs
  induction xs with
  | nil => intro _ t ht; exact ht
  | cons x xs ih =>
    intro hx t ht
    show ((tryMagnet (x :: (xs ++ t))).isNone && noStart (xs ++ t)) = true
    rw [tryMagnet_not_m _ _ (hx x (by simp)), ih (fun c hc => hx c (by simp [hc])) t ht]
    rfl

theorem takeHex_short :
    ∀ (h : List Char) (n : Nat) (c : Char) (rest : List Char),
      h.length < n → (∀ x ∈ h, isHexChar x = true) → isHexChar c = false →
      takeHex n (h ++ c :: rest) = none := by
  intro h
  induction h with
  | nil =>
    intro n c rest hn _ hc
    match n, hn with
    | n + 1, _ =>
      unfold takeHex
      rw [List.nil_append]
      simp [hc]
  | cons x h ih =>
    intro n c rest hn hx hc
    match n, hn with
    | n + 1, hn =>
      unfold takeHex
      have hxh : isHexChar x = true := hx x (by simp)
      rw [List.cons_append]
      simp only [hxh, if_true]
      rw [ih n c rest (by simpa using hn) (fun y hy => hx y (by simp [hy])) hc]
      rfl

theorem tryMagnet_entry (h : List Char) (rest : List Char)
    (hlen : h.length = 39) (hhex : ∀ c ∈ h, isHexChar c = true) :
    tryMagnet (("magnet:?xt=urn:btih:".toList) ++ (h ++ '&' :: rest)) = none := by
  have hm : ciMatch magnetPat (("magnet:?xt=urn:btih:".toList) ++ (h ++ '&' :: rest))
      = some (h ++ '&' :: rest) := rfl
  have htake : takeHex 40 (h ++ '&' :: rest) = none :=
    takeHex_short h 40 '&' rest (by omega) hhex (by decide)
  unfold tryMagnet
  simp only [hm, htake]

theorem noStart_39 (h : List Char) (hlen : h.length = 39)
    (hhex : ∀ c ∈ h, isHexChar c = true) :
    noStart (magnetExamplePre ++ h ++ magnetExamplePost) = true := by
  have h1 : noStart (h ++ '&' :: ("dn=Foo".toList)) = true := by
    refine noStart_append_of_heads h (fun c hc => hex_not_m c (hhex c hc)) _ ?_
    show ((tryMagnet ('&' :: ("dn=Foo".toList))).isNone && noStart ("dn=Foo".toList)) = true
    rw [show tryMagnet ('&' :: ("dn=Foo".toList)) = none from tryMagnet_not_m _ _ (by decide)]
    decide
  have h2 : noStart (("magnet:?xt=urn:btih:".toList) ++ (h ++ '&' :: ("dn=Foo".toList))) = true := by
    show ((tryMagnet (("magnet:?xt=urn:btih:".toList) ++ (h ++ '&' :: ("dn=Foo".toList)))).isNone
        && noStart (("agnet:?xt=urn:btih:".toList) ++ (h ++ '&' :: ("dn=Foo".toList)))) = true
    rw [tryMagnet_entry h _ hlen hhex,
      noStart_append_of_heads ("agnet:?xt=urn:btih:".toList) (by decide) _ h1]
    rfl
  have h3 : noStart (("grab this ".toList) ++
      (("magnet:?xt=urn:btih:".toList) ++ (h ++ '&' :: ("dn=Foo".toList)))) = true :=
    noStart_append_of_heads ("grab this ".toList) (by decide) _ h2
  exact h3

/-! ## Claim C6 -/

/-- C6: the spec's example text yields exactly one extracted magnet link,
whose display name parses to `Foo`; and for any 39-hex-character
info-hash, the example-shaped text yields zero matches. -/
theorem magnet_extraction_behavior :
    (magnetFindAll magnetExampleText = [magnetExampleLink] ∧
     magnetDn magnetExampleLink = ("Foo".toList)) ∧
    (∀ h : List Char, h.length = 39 → (∀ c ∈ h, isHexChar c = true) →
      magnetFindAll (magnetExamplePre ++ h ++ magnetExamplePost) = []) := by
  constructor
  · exact ⟨by decide, by decide⟩
  · intro h hlen hhex
    exact goMagnet_of_noStart _ _ (noStart_39 h hlen hhex)

/-- Witness for C6: a concrete 39-character hash yields zero matches. -/
theorem magnet_extraction_behavior_w :
    magnetFindAll (magnetExamplePre ++ List.replicate 39 'a' ++ magnetExamplePost) = [] :=
  magnet_extraction_behavior.2 (List.replicate 39 'a') (by decide) (by decide)

/-! ## Lemmas about the Torznab parser -/

theorem charVal_digitChar (n : Nat) (h : n < 10) : charVal (digitChar n) = n := by
  interval_cases n <;> rfl

theorem isDigitChar_digitChar (n : Nat) (h : n < 10) : isDigitChar (digitChar n) = true := by
  interval_cases n <;> rfl

theorem natOfDigits_append (l : List Char) (c : Char) :
    natOfDigits (l ++ [c]) = 10 * natOfDigits l + charVal c := by
  unfold natOfDigits
  rw [List.foldl_append]
  rfl

theorem natDigitsAux_spec : ∀ (fuel n : Nat), n < fuel →
    natOfDigits (natDigitsAux fuel n) = n ∧
    (∀ c ∈ natDigitsAux fuel n, isDigitChar c = true) ∧
    natDigitsAux fuel n ≠ [] := by
  intro fuel
  induction fuel with
  | zero => intro n h; omega
  | succ fuel ih =>
    intro n h
    have hstep : natDigitsAux (fuel + 1) n
        = if n < 10 then [digitChar n]
          else natDigitsAux fuel (n / 10) ++ [digitChar (n % 10)] := rfl
    by_cases hn : n < 10
    · rw [hstep, if_pos hn]
      refine ⟨?_, ?_, List.cons_ne_nil _ _⟩
      · show natOfDigits ([] ++ [digitChar n]) = n
        rw [natOfDigits_append, charVal_digitChar n hn]
        have h0 : natOfDigits [] = 0 := rfl
        rw [h0]
        omega
      · intro c hc
        rw [List.mem_singleton] at hc
        rw [hc]
        exact isDigitChar_digitChar n hn
    · rw [hstep, if_neg hn]
      have hdiv : n / 10 < fuel := by
        have h1 : n / 10 < n := Nat.div_lt_self (by omega) (by omega)
        omega
      obtain ⟨ihv, ihd, _⟩ := ih (n / 10) hdiv
      refine ⟨?_, ?_, ?_⟩
      · rw [natOfDigits_append, ihv, charVal_digitChar _ (Nat.mod_lt _ (by omega))]
        omega
      · intro c hc
        rw [List.mem_append] at hc
        rcases hc with hc | hc
        · exact ihd c hc
        · rw [List.mem_singleton] at hc
          rw [hc]
          exact isDigitChar_digitChar _ (Nat.mod_lt _ (by omega))
      · simp

theorem natOfDigits_natDigits (n : Nat) : natOfDigits (natDigits n) = n :=
  (natDigitsAux_spec (n + 1) n (by omega)).1

theorem isDigits_natDigits (n : Nat) : isDigits (natDigits n) = true := by
  obtain ⟨_, hd, hne⟩ := natDigitsAux_spec (n + 1) n (by omega)
  unfold isDigits
  rw [Bool.and_eq_true]
  constructor
  · cases hx : natDigits n
    · exact absurd hx hne
    · rfl
  · rw [List.all_eq_true]
    intro c hc
    exact hd c hc

theorem torznabIntField_natDigitsStr (n : Nat) :
    torznabIntField (some (natDigitsStr n)) = (n : Int) := by
  simp only [torznabIntField]
  rw [show (natDigitsStr n).toList = natDigits n from rfl,
    if_pos (isDigits_natDigits n), natOfDigits_natDigits]

theorem torznabIntField_nonneg (o : Option String) : 0 ≤ torznabIntField o := by
  cases o with
  | none => rw [show torznabIntField none = 0 from rfl]
  | some s =>
    simp only [torznabIntField]
    split
    · exact Int.natCast_nonneg _
    · omega

theorem enclosureLink_sw (it : XElem) (u : String) (h : enclosureLink it = some u) :
    pyStartsWith ("magnet:".toList) u.toList = true := by
  unfold enclosureLink at h
  split at h
  · split at h
    · rename_i hsw
      cases h
      exact hsw
    · cases h
  · cases h

theorem linkTagLink_cond (it : XElem) (u : String) (h : linkTagLink it = some u) :
    (!u.toList.isEmpty &&
      (pyStartsWith ("http".toList) u.toList ||
       pyStartsWith ("magnet:".toList) u.toList)) = true := by
  unfold linkTagLink at h
  split at h
  · split at h
    · rename_i hcond
      cases h
      exact hcond
    · cases h
  · cases h

theorem itemLink_ne_empty (it : XElem) (u : String) (h : itemLink it = some u) :
    u ≠ "" := by
  intro hu
  unfold itemLink at h
  split at h
  · rename_i v hv
    cases h
    have := enclosureLink_sw it u hv
    rw [hu] at this
    exact absurd this (by decide)
  · have := linkTagLink_cond it u h
    rw [hu, Bool.and_eq_true] at this
    exact absurd this.1 (by decide)

theorem parseItem_struct (it : XElem) (idx : String) (r : Release)
    (heq : parseItem it idx = some r) :
    ∃ (link : String) (lstr : Option String),
      itemLink it = some link ∧
      r = { title := findtext it "title"
            link := link
            size := torznabIntField (scanAttrs (childrenNamed it "torznab:attr")).size_str
            seeders := torznabIntField (scanAttrs (childrenNamed it "torznab:attr")).seeders_str
            leechers := torznabIntField lstr
            pub_date := findtext it "pubDate"
            indexer := idx } := by
  unfold parseItem at heq
  split at heq
  · cases heq
  · rename_i link hlink
    cases heq
    exact ⟨link, _, hlink, rfl⟩


theorem parse_ok_mem (x : XmlInput) (idx : String) (rs : List Release) (r : Release)
    (hok : parse_torznab_response x idx = .ok rs) (hr : r ∈ rs) :
    ∃ it, parseItem it idx = some r := by
  match x with
  | .malformed => cases hok
  | .doc root =>
    replace hok :
        (match findChild root "error" with
          | some _ => (Except.error JErr.apiError : Except JErr (List Release))
          | none =>
            match findChild root "channel" with
            | none => Except.ok []
            | some channel =>
              Except.ok ((childrenNamed channel "item").filterMap
                (fun it => parseItem it idx))) = Except.ok rs := hok
    cases herr : findChild root "error" with
    | some e =>
      rw [herr] at hok
      cases hok
    | none =>
      rw [herr] at hok
      cases hch : findChild root "channel" with
      | none =>
        rw [hch] at hok
        cases hok
        cases hr
      | some channel =>
        rw [hch] at hok
        cases hok
        obtain ⟨it, _, hit⟩ := List.mem_filterMap.mp hr
        exact ⟨it, hit⟩

/-! ## Claim C10 -/

/-- C10: every release produced by Torznab parsing has a non-empty link
(an item with no usable magnet or http link is skipped), non-negative
`size`, `seeders` and `leechers`, and the caller's indexer tag; `size`
defaults to 0 when its attribute is missing or not a plain digit string;
and with no `leechers` attribute but parseable `peers` and `seeders`,
`leechers = max 0 (peers - seeders)`. -/
theorem torznab_release_invariants :
    (∀ (x : XmlInput) (idx : String) (rs : List Release) (r : Release),
      parse_torznab_response x idx = .ok rs → r ∈ rs →
      r.link ≠ "" ∧ 0 ≤ r.size ∧ 0 ≤ r.seeders ∧ 0 ≤ r.leechers ∧ r.indexer = idx) ∧
    (∀ (it : XElem) (idx : String), itemLink it = none → parseItem it idx = none) ∧
    (∀ (it : XElem) (idx : String) (r : Release) (s : String),
      parseItem it idx = some r →
      ((scanAttrs (childrenNamed it "torznab:attr")).size_str = none ∨
       ((scanAttrs (childrenNamed it "torznab:attr")).size_str = some s ∧
        isDigits s.toList = false)) → r.size = 0) ∧
    (∀ (it : XElem) (idx : String) (r : Release) (pa : XElem) (sstr : String) (pv sv : Int),
      parseItem it idx = some r →
      (scanAttrs (childrenNamed it "torznab:attr")).leechers_str = none →
      findPeersAttr (childrenNamed it "torznab:attr") = some pa →
      (scanAttrs (childrenNamed it "torznab:attr")).seeders_str = some sstr →
      (getAttr pa "value").bind pyParseInt = some pv →
      pyParseInt sstr = some sv →
      r.leechers = max 0 (pv - sv)) := by
  refine ⟨?_, ?_, ?_, ?_⟩
  · intro x idx rs r hok hr
    obtain ⟨it, hit⟩ := parse_ok_mem x idx rs r hok hr
    obtain ⟨link, lstr, hlink, hrec⟩ := parseItem_struct it idx r hit
    subst hrec
    exact ⟨itemLink_ne_empty it link hlink, torznabIntField_nonneg _,
      torznabIntField_nonneg _, torznabIntField_nonneg _, rfl⟩
  · intro it idx hnone
    unfold parseItem
    rw [hnone]
  · intro it idx r s heq hcase
    obtain ⟨link, lstr, _, hrec⟩ := parseItem_struct it idx r heq
    subst hrec
    show torznabIntField (scanAttrs (childrenNamed it "torznab:attr")).size_str = 0
    rcases hcase with hnone | ⟨hsome, hdig⟩
    · rw [hnone]
      rfl
    · rw [hsome]
      simp only [torznabIntField]
      rw [if_neg]
      rw [hdig]
      simp
  · intro it idx r pa sstr pv sv heq hln hpa hss hpv hsv
    unfold parseItem at heq
    split at heq
    · cases heq
    · simp only [hln, hpa, hss, hpv, hsv] at heq
      cases heq
      show torznabIntField (some (natDigitsStr ((max 0 (pv - sv)).toNat))) = max 0 (pv - sv)
      rw [torznabIntField_natDigitsStr]
      exact Int.toNat_of_nonneg (le_max_left 0 (pv - sv))

/-- Witness for C10: the invariants instantiated on the example document
and the peers-only item (leechers derived as max 0 (10 - 7) = 3). -/
theorem torznab_release_invariants_w :
    torznabExampleRelease.link ≠ "" ∧ (0 : Int) ≤ torznabExampleRelease.size ∧
    (∃ r, parseItem torznabPeersItem "ix" = some r ∧ r.leechers = max 0 (10 - 7)) := by
  refine ⟨?_, ?_, ?_⟩
  · exact (torznab_release_invariants.1 torznabExampleDoc "myindexer" [torznabExampleRelease]
      torznabExampleRelease rfl (by simp)).1
  · exact (torznab_release_invariants.1 torznabExampleDoc "myindexer" [torznabExampleRelease]
      torznabExampleRelease rfl (by simp)).2.1
  · refine ⟨_, rfl, ?_⟩
    exact torznab_release_invariants.2.2.2 torznabPeersItem "ix" _
      ⟨"torznab:attr", [("name", "peers"), ("value", "10")], [], none⟩
      "7" 10 7 rfl rfl rfl rfl rfl rfl

/-! ## Lemmas about the Jackett search loop -/

theorem parse_error_range (x : XmlInput) (id : String) (e : JErr)
    (h : parse_torznab_response x id = .error e) : e = .apiError ∨ e = .parseError := by
  match x with
  | .malformed =>
    cases h
    right; rfl
  | .doc root =>
    replace h :
        (match findChild root "error" with
          | some _ => (Except.error JErr.apiError : Except JErr (List Release))
          | none =>
            match findChild root "channel" with
            | none => Except.ok []
            | some channel =>
              Except.ok ((childrenNamed channel "item").filterMap
                (fun it => parseItem it id))) = Except.error e := h
    cases herr : findChild root "error" with
    | some v =>
      rw [herr] at h
      cases h
      left; rfl
    | none =>
      rw [herr] at h
      cases hch : findChild root "channel" with
      | none => rw [hch] at h; cases h
      | some channel => rw [hch] at h; cases h

theorem searchLoop_ok (fetch : String → IndexerResponse) (lenEff : Nat)
    (hne : (lenEff == 1) = false) :
    ∀ (l : List String) (acc : List Release) (succ : Nat),
      searchLoop lenEff fetch acc succ l
        = .ok (acc ++ (l.map (indexerResults fetch)).flatten,
               succ + l.countP (indexerOk fetch)) := by
  intro l
  induction l with
  | nil => intro acc succ; simp [searchLoop]
  | cons id rest ih =>
    intro acc succ
    cases hf : fetch id with
    | transportError =>
      have hres : indexerResults fetch id = [] := by
        simp only [indexerResults, hf]
      have hok : indexerOk fetch id = false := by
        simp only [indexerOk, hf]
      simp only [searchLoop, hf, hne, Bool.and_false, Bool.false_eq_true, if_false]
      rw [ih]
      simp [hres, hok]
    | body x =>
      cases hp : parse_torznab_response x id with
      | ok rs =>
        have hres : indexerResults fetch id = rs := by
          simp only [indexerResults, hf, hp]
        have hok : indexerOk fetch id = true := by
          simp only [indexerOk, hf, hp]
        simp only [searchLoop, hf, hp]
        rw [ih]
        simp [hres, hok, List.append_assoc]
        omega
      | error e =>
        have hres : indexerResults fetch id = [] := by
          simp only [indexerResults, hf, hp]
        have hok : indexerOk fetch id = false := by
          simp only [indexerOk, hf, hp]
        rcases parse_error_range x id e hp with rfl | rfl
        · simp only [searchLoop, hf, hp, hne, Bool.and_false, Bool.false_eq_true, if_false]
          rw [ih]
          simp [hres, hok]
        · simp only [searchLoop, hf, hp, hne, Bool.and_false, Bool.false_eq_true, if_false]
          rw [ih]
          simp [hres, hok]

theorem searchLoop_parseError (fetch : String → IndexerResponse) (lenEff : Nat) :
    ∀ (l : List String) (acc : List Release) (succ : Nat),
      searchLoop lenEff fetch acc succ l = .error .parseError →
      lenEff = 1 ∧ "all" ∈ l := by
  intro l
  induction l with
  | nil =>
    intro acc succ h
    cases h
  | cons id rest ih =>
    intro acc succ h
    cases hf : fetch id with
    | transportError =>
      simp only [searchLoop, hf] at h
      cases hg : (id == "all" && (lenEff == 1))
      · rw [hg] at h
        simp only [Bool.false_eq_true, if_false] at h
        obtain ⟨h1, h2⟩ := ih acc succ h
        exact ⟨h1, by simp [h2]⟩
      · rw [hg] at h
        simp at h
    | body x =>
      simp only [searchLoop, hf] at h
      cases hp : parse_torznab_response x id with
      | ok rs =>
        rw [hp] at h
        obtain ⟨h1, h2⟩ := ih _ _ h
        exact ⟨h1, by simp [h2]⟩
      | error e =>
        rcases parse_error_range x id e hp with rfl | rfl
        · rw [hp] at h
          cases hg : (id == "all" && (lenEff == 1))
          · rw [hg] at h
            simp only [Bool.false_eq_true, if_false] at h
            obtain ⟨h1, h2⟩ := ih acc succ h
            exact ⟨h1, by simp [h2]⟩
          · rw [hg] at h
            simp at h
        · rw [hp] at h
          cases hg : (id == "all" && (lenEff == 1))
          · rw [hg] at h
            simp only [Bool.false_eq_true, if_false] at h
            obtain ⟨h1, h2⟩ := ih acc succ h
            exact ⟨h1, by simp [h2]⟩
          · rw [Bool.and_eq_true] at hg
            have hid : id = "all" := by
              have := hg.1
              simpa using this
            have hlen : lenEff = 1 := by
              have := hg.2
              simpa using this
            exact ⟨hlen, by simp [hid]⟩


/-! ## Claim C9 -/

/-- C9: with at least two explicitly listed indexers of which at least one
query succeeds, `search` returns (no exception) the concatenation of every
indexer's parsed results, so one indexer's parse failure contributes
nothing but discards nothing; a parse failure is propagated to the caller
exactly on the sole-`all` aggregate query (conjunct two gives the positive
direction, conjunct three that no other indexer list can surface it). -/
theorem search_isolates_parse_failures :
    (∀ (q : String) (inds : List String) (fetch : String → IndexerResponse),
      ¬q = "" → 2 ≤ inds.length → (∃ i ∈ inds, indexerOk fetch i = true) →
      search q (some inds) fetch = .ok ((inds.map (indexerResults fetch)).flatten)) ∧
    (∀ (q : String) (x : XmlInput) (fetch : String → IndexerResponse),
      ¬q = "" → fetch "all" = .body x →
      parse_torznab_response x "all" = .error .parseError →
      search q none fetch = .error .parseError) ∧
    (∀ (q : String) (inds : List String) (fetch : String → IndexerResponse),
      search q (some inds) fetch = .error .parseError → inds = [] ∨ inds = ["all"]) := by
  refine ⟨?_, ?_, ?_⟩
  · intro q inds fetch hq hlen hex
    have hemp : inds.isEmpty = false := by
      cases inds
      · simp at hlen
      · rfl
    have hne : (inds.length == 1) = false := by
      have : inds.length ≠ 1 := by omega
      simpa using this
    unfold search
    rw [if_neg hq]
    simp only [hemp, Bool.false_eq_true, if_false]
    rw [searchLoop_ok fetch inds.length hne inds [] 0]
    have hcount : 0 < inds.countP (indexerOk fetch) := by
      rw [List.countP_pos_iff]
      obtain ⟨i, hi, hoki⟩ := hex
      exact ⟨i, hi, hoki⟩
    have hz : ((0 + inds.countP (indexerOk fetch)) == 0) = false := by
      have : 0 + inds.countP (indexerOk fetch) ≠ 0 := by omega
      simpa using this
    simp only [hz, Bool.and_false, Bool.false_eq_true, if_false, List.nil_append]
  · intro q x fetch hq hf hp
    unfold search
    rw [if_neg hq]
    simp only [searchLoop, hf, hp]
    simp
  · intro q inds fetch h
    unfold search at h
    by_cases hq : q = ""
    · rw [if_pos hq] at h
      cases h
    · rw [if_neg hq] at h
      cases hemp : inds.isEmpty
      · right
        simp only [hemp, Bool.false_eq_true, if_false] at h
        cases hloop : searchLoop inds.length fetch [] 0 inds with
        | error e =>
          simp only [hloop] at h
          cases h
          obtain ⟨hlen1, hmem⟩ := searchLoop_parseError fetch inds.length inds [] 0 hloop
          match inds, hlen1 with
          | [a], _ =>
            rw [List.mem_singleton] at hmem
            rw [hmem]
        | ok p =>
          simp only [hloop] at h
          cases hg : (decide (0 < inds.length) && (p.2 == 0))
          · rw [hg] at h
            simp at h
          · rw [hg] at h
            simp at h
      · left
        cases inds
        · rfl
        · cases hemp

/-- Witness for C9: indexer `ix1` malformed, `ix2` valid — the search
returns both indexers' contributions (the failing one contributing
nothing). -/
theorem search_isolates_parse_failures_w :
    search "q" (some ["ix1", "ix2"]) twoIndexerFetch
      = .ok ((["ix1", "ix2"].map (indexerResults twoIndexerFetch)).flatten) := by
  refine search_isolates_parse_failures.1 "q" ["ix1", "ix2"] twoIndexerFetch (by decide) (by decide) ?_
  exact ⟨"ix2", by simp, rfl⟩

/-! ## Lemmas about the command dispatcher -/

theorem processCommand_eq_core (users : List (List Char)) (uid : List Char)
    (jf : Bool) (t : List Char) :
    processCommand users uid jf t
      = processCommandCore (users.isEmpty || users.contains uid) jf
          (keyboard_command_map t) := rfl

theorem isEmpty_false_of_ne (users : List (List Char)) (h : users ≠ []) :
    users.isEmpty = false := by
  cases users
  · exact absurd rfl h
  · rfl

theorem denialCount_append (a b : List Event) :
    denialCount (a ++ b) = denialCount a + denialCount b := by
  simp [denialCount, List.countP_append]

theorem denialCount_magnet_fold_auth (ms : List (List Char)) :
    denialCount (ms.foldr (fun m acc =>
      (if !true then [Event.denial]
       else [.reply "adding", .backend (.addMagnet m), .reply "add-result"]) ++ acc) []) = 0 := by
  induction ms with
  | nil => rfl
  | cons m ms ih =>
    show denialCount ((if !true then [Event.denial]
       else [.reply "adding", .backend (.addMagnet m), .reply "add-result"]) ++ _) = 0
    rw [denialCount_append, ih]
    rfl

theorem denialCount_core_auth (jf : Bool) (t : List Char) :
    denialCount (processCommandCore true jf t) = 0 := by
  unfold processCommandCore
  split
  · rfl
  · split
    · rfl
    · split
      · rfl
      · split
        · rfl
        · split
          · rfl
          · split
            · rfl
            · split
              · rfl
              · split
                · rfl
                · split
                  · rfl
                  · exact denialCount_magnet_fold_auth (magnetFindAll t)

theorem beq_false_of_eval (t s : List Char) (f : List Char → Bool)
    (ht : f t = true) (hs : f s = false) : (t == s) = false := by
  cases heq : t == s
  · rfl
  · have hts : t = s := by simpa using heq
    rw [hts, hs] at ht
    cases ht

theorem magnet_nonempty_eval (t : List Char) (hm : magnetFindAll t ≠ []) :
    (!(magnetFindAll t).isEmpty) = true := by
  cases hmv : magnetFindAll t
  · exact absurd hmv hm
  · rfl

theorem keyboard_command_map_fix (t : List Char)
    (h1 : (t == ("📊 Status do Servidor".toList)) = false)
    (h2 : (t == ("📦 Listar Torrents".toList)) = false)
    (h3 : (t == ("💾 Espaço em Disco".toList)) = false)
    (h4 : (t == ("🎬 Itens Recentes".toList)) = false)
    (h5 : (t == ("🎭 Recentes Detalhado".toList)) = false)
    (h6 : (t == ("📚 Bibliotecas".toList)) = false)
    (h7 : (t == ("🎥 YouTube".toList)) = false)
    (h8 : (t == ("❓ Ajuda".toList)) = false) :
    keyboard_command_map t = t := by
  unfold keyboard_command_map
  rw [h1, h2, h3, h4, h5, h6, h7, h8]
  simp

theorem core_youtube_url_denial (jf : Bool) (t : List Char)
    (hyt : is_youtube_url t = true) :
    processCommandCore false jf t = [Event.denial] := by
  have h1 : (t == ("/start".toList)) = false :=
    beq_false_of_eval t _ is_youtube_url hyt (by decide)
  have h2 : (t == ("❓ Ajuda".toList)) = false :=
    beq_false_of_eval t _ is_youtube_url hyt (by decide)
  have h3 : (t == ("/qespaco".toList)) = false :=
    beq_false_of_eval t _ is_youtube_url hyt (by decide)
  have h4 : (t == ("/qtorrents".toList)) = false :=
    beq_false_of_eval t _ is_youtube_url hyt (by decide)
  have h5 : (t == ("/recent".toList)) = false :=
    beq_false_of_eval t _ is_youtube_url hyt (by decide)
  have h6 : (t == ("/recentes".toList)) = false :=
    beq_false_of_eval t _ is_youtube_url hyt (by decide)
  have h7 : (t == ("/libraries".toList)) = false :=
    beq_false_of_eval t _ is_youtube_url hyt (by decide)
  have h8 : (t == ("/status".toList)) = false :=
    beq_false_of_eval t _ is_youtube_url hyt (by decide)
  have h9 : (t == ("/youtube".toList)) = false :=
    beq_false_of_eval t _ is_youtube_url hyt (by decide)
  unfold processCommandCore
  rw [h1, h2, h3, h4, h5, h6, h7, h8, h9, hyt]
  simp

theorem foldr_denial_replicate (ms : List (List Char)) :
    ms.foldr (fun _ acc => Event.denial :: acc) []
      = List.replicate ms.length Event.denial := by
  induction ms with
  | nil => rfl
  | cons m ms ih =>
    show Event.denial :: (ms.foldr _ []) = _
    rw [ih, List.length_cons, List.replicate_succ]

theorem core_magnet_denials (jf : Bool) (t : List Char)
    (hm : magnetFindAll t ≠ []) (hyt : is_youtube_url t = false) :
    processCommandCore false jf t
      = List.replicate (magnetFindAll t).length Event.denial := by
  have hmt := magnet_nonempty_eval t hm
  have h1 : (t == ("/start".toList)) = false :=
    beq_false_of_eval t _ (fun s => !(magnetFindAll s).isEmpty) hmt (by decide)
  have h2 : (t == ("❓ Ajuda".toList)) = false :=
    beq_false_of_eval t _ (fun s => !(magnetFindAll s).isEmpty) hmt (by decide)
  have h3 : (t == ("/qespaco".toList)) = false :=
    beq_false_of_eval t _ (fun s => !(magnetFindAll s).isEmpty) hmt (by decide)
  have h4 : (t == ("/qtorrents".toList)) = false :=
    beq_false_of_eval t _ (fun s => !(magnetFindAll s).isEmpty) hmt (by decide)
  have h5 : (t == ("/recent".toList)) = false :=
    beq_false_of_eval t _ (fun s => !(magnetFindAll s).isEmpty) hmt (by decide)
  have h6 : (t == ("/recentes".toList)) = false :=
    beq_false_of_eval t _ (fun s => !(magnetFindAll s).isEmpty) hmt (by decide)
  have h7 : (t == ("/libraries".toList)) = false :=
    beq_false_of_eval t _ (fun s => !(magnetFindAll s).isEmpty) hmt (by decide)
  have h8 : (t == ("/status".toList)) = false :=
    beq_false_of_eval t _ (fun s => !(magnetFindAll s).isEmpty) hmt (by decide)
  have h9 : (t == ("/youtube".toList)) = false :=
    beq_false_of_eval t _ (fun s => !(magnetFindAll s).isEmpty) hmt (by decide)
  unfold processCommandCore
  rw [h1, h2, h3, h4, h5, h6, h7, h8, h9, hyt]
  simp
  exact foldr_denial_replicate (magnetFindAll t)

theorem youtube_keyboard_fix (t : List Char) (hyt : is_youtube_url t = true) :
    keyboard_command_map t = t :=
  keyboard_command_map_fix t
    (beq_false_of_eval t _ is_youtube_url hyt (by decide))
    (beq_false_of_eval t _ is_youtube_url hyt (by decide))
    (beq_false_of_eval t _ is_youtube_url hyt (by decide))
    (beq_false_of_eval t _ is_youtube_url hyt (by decide))
    (beq_false_of_eval t _ is_youtube_url hyt (by decide))
    (beq_false_of_eval t _ is_youtube_url hyt (by decide))
    (beq_false_of_eval t _ is_youtube_url hyt (by decide))
    (beq_false_of_eval t _ is_youtube_url hyt (by decide))

theorem magnet_keyboard_fix (t : List Char) (hm : magnetFindAll t ≠ []) :
    keyboard_command_map t = t := by
  have hmt := magnet_nonempty_eval t hm
  exact keyboard_command_map_fix t
    (beq_false_of_eval t _ (fun s => !(magnetFindAll s).isEmpty) hmt (by decide))
    (beq_false_of_eval t _ (fun s => !(magnetFindAll s).isEmpty) hmt (by decide))
    (beq_false_of_eval t _ (fun s => !(magnetFindAll s).isEmpty) hmt (by decide))
    (beq_false_of_eval t _ (fun s => !(magnetFindAll s).isEmpty) hmt (by decide))
    (beq_false_of_eval t _ (fun s => !(magnetFindAll s).isEmpty) hmt (by decide))
    (beq_false_of_eval t _ (fun s => !(magnetFindAll s).isEmpty) hmt (by decide))
    (beq_false_of_eval t _ (fun s => !(magnetFindAll s).isEmpty) hmt (by decide))
    (beq_false_of_eval t _ (fun s => !(magnetFindAll s).isEmpty) hmt (by decide))

/-! ## Claim C3 (amended) -/

/-- C3 (amended): in the polling dispatcher of src/telegram_utils.py, every
authorization-gated command (`/qtorrents`, the Jellyfin commands when a
manager is configured, `/youtube`) from a user outside a non-empty
`AUTHORIZED_USERS` produces exactly the single denial notification and no
backend call; a YouTube-URL message likewise produces exactly one denial
and no backend call, and a message whose text carries k magnet links
produces exactly one denial per link (k denials) and no backend call;
with an empty `AUTHORIZED_USERS` no text is ever denied; but `/qespaco`
(like `/start`) carries no authorization check at all and always performs
its backend call. -/
theorem dispatcher_authorization_amended :
    (∀ (users : List (List Char)) (uid : List Char) (jf : Bool) (cmd : List Char),
      users ≠ [] → users.contains uid = false → cmd ∈ gatedCommands jf →
      processCommand users uid jf cmd = [Event.denial]) ∧
    (∀ (uid : List Char) (jf : Bool) (text : List Char),
      denialCount (processCommand [] uid jf text) = 0) ∧
    (∀ (users : List (List Char)) (uid : List Char) (jf : Bool),
      processCommand users uid jf ("/qespaco".toList)
        = [.backend .diskSpace, .reply "disk"]) ∧
    (∀ (users : List (List Char)) (uid : List Char) (jf : Bool) (t : List Char),
      users ≠ [] → users.contains uid = false → is_youtube_url t = true →
      processCommand users uid jf t = [Event.denial]) ∧
    (∀ (users : List (List Char)) (uid : List Char) (jf : Bool) (t : List Char),
      users ≠ [] → users.contains uid = false →
      magnetFindAll t ≠ [] → is_youtube_url t = false →
      processCommand users uid jf t
        = List.replicate (magnetFindAll t).length Event.denial) := by
  refine ⟨?_, ?_, ?_, ?_, ?_⟩
  · intro users uid jf cmd hne hmem hcmd
    rw [processCommand_eq_core, isEmpty_false_of_ne users hne, hmem]
    cases jf
    · simp [gatedCommands] at hcmd
      rcases hcmd with rfl | rfl <;> decide
    · simp [gatedCommands] at hcmd
      rcases hcmd with rfl | rfl | rfl | rfl | rfl | rfl <;> decide
  · intro uid jf text
    rw [processCommand_eq_core]
    simp only [List.isEmpty_nil, Bool.true_or]
    exact denialCount_core_auth jf (keyboard_command_map text)
  · intro users uid jf
    rw [processCommand_eq_core]
    cases (users.isEmpty || users.contains uid) <;> cases jf <;> decide
  · intro users uid jf t hne hmem hyt
    rw [processCommand_eq_core, isEmpty_false_of_ne users hne, hmem,
      youtube_keyboard_fix t hyt]
    exact core_youtube_url_denial jf t hyt
  · intro users uid jf t hne hmem hm hyt
    rw [processCommand_eq_core, isEmpty_false_of_ne users hne, hmem,
      magnet_keyboard_fix t hm]
    exact core_magnet_denials jf t hm hyt

/-- Witness for C3: from an unauthorized user, `/qtorrents` and a YouTube
link each yield exactly the denial event, and the magnet example text
(one magnet link) yields exactly one denial. -/
theorem dispatcher_authorization_amended_w :
    processCommand [("42".toList)] ("7".toList) true ("/qtorrents".toList)
      = [Event.denial] ∧
    processCommand [("42".toList)] ("7".toList) true ("https://youtu.be/abc".toList)
      = [Event.denial] ∧
    processCommand [("42".toList)] ("7".toList) true magnetExampleText
      = List.replicate (magnetFindAll magnetExampleText).length Event.denial :=
  ⟨dispatcher_authorization_amended.1 [("42".toList)] ("7".toList) true
      ("/qtorrents".toList) (by decide) (by decide) (by decide),
   dispatcher_authorization_amended.2.2.2.1 [("42".toList)] ("7".toList) true
      ("https://youtu.be/abc".toList) (by decide) (by decide) (by decide),
   dispatcher_authorization_amended.2.2.2.2 [("42".toList)] ("7".toList) true
      magnetExampleText (by decide) (by decide) (by decide) (by decide)⟩

/-- Counterexample for C3 as stated: `/qespaco` from a user not in the
non-empty authorization set performs one backend call and emits no denial
notification. -/
theorem dispatcher_qespaco_unauthorized_cx :
    denialCount (processCommand [("42".toList)] ("7".toList) true ("/qespaco".toList)) = 0 ∧
    backendCount (processCommand [("42".toList)] ("7".toList) true ("/qespaco".toList)) = 1 := by
  decide

/-! ## Lemmas about the poll cursor -/

theorem foldl_max_le (l : List Nat) : ∀ c : Nat,
    c ≤ l.foldl max c ∧ ∀ x ∈ l, x ≤ l.foldl max c := by
  induction l with
  | nil =>
    intro c
    exact ⟨le_refl c, by intro x hx; cases hx⟩
  | cons a l ih =>
    intro c
    have h1 := ih (max c a)
    refine ⟨le_trans (le_max_left c a) h1.1, ?_⟩
    intro x hx
    rcases List.mem_cons.mp hx with rfl | hx
    · exact le_trans (le_max_right c x) h1.1
    · exact h1.2 x hx

theorem foldl_max_mem (l : List Nat) : ∀ c : Nat,
    l.foldl max c = c ∨ l.foldl max c ∈ l := by
  induction l with
  | nil => intro c; left; rfl
  | cons a l ih =>
    intro c
    have hfold : (a :: l).foldl max c = l.foldl max (max c a) := rfl
    rcases ih (max c a) with h | h
    · rw [hfold, h]
      rcases max_choice c a with hm | hm
      · left; exact hm
      · right; rw [hm]; exact List.mem_cons_self a l
    · right
      rw [hfold]
      exact List.mem_cons.mpr (Or.inr h)

theorem mainFold_fst : ∀ (updates : List MainUpdate) (c : Nat) (evs : List Event),
    (updates.foldl mainHandleUpdate (c, evs)).1 = (batchIds updates).foldl max c := by
  intro updates
  induction updates with
  | nil => intro c evs; rfl
  | cons u us ih =>
    intro c evs
    exact ih (max c u.update_id) _

theorem mainNewCursor_eq (c : Nat) (updates : List MainUpdate) :
    mainNewCursor c updates = (batchIds updates).foldl max c := by
  have h : mainNewCursor c updates = (updates.foldl mainHandleUpdate (c, [])).1 := rfl
  rw [h, mainFold_fst]

theorem tgFold_fst : ∀ (updates : List TgUpdate) (users : List (List Char)) (jf : Bool)
    (c : Nat) (evs : List Event),
    (updates.foldl (tgHandleUpdate users jf) (c, evs)).1
      = (tgHandledIds updates).foldl max c := by
  intro updates
  induction updates with
  | nil => intro users jf c evs; rfl
  | cons u us ih =>
    intro users jf c evs
    cases hid : u.update_id with
    | none =>
      have hstep : tgHandleUpdate users jf (c, evs) u = (c, evs) := by
        simp only [tgHandleUpdate, hid]
      have hids : tgHandledIds (u :: us) = tgHandledIds us := by
        simp [tgHandledIds, tgWellFormed, hid]
      show ((us.foldl (tgHandleUpdate users jf) (tgHandleUpdate users jf (c, evs) u))).1 = _
      rw [hstep, hids]
      exact ih users jf c evs
    | some i =>
      show ((us.foldl (tgHandleUpdate users jf) (tgHandleUpdate users jf (c, evs) u))).1 = _
      cases h1 : (pyStrip u.text).isEmpty <;> cases h2 : u.chat_id.isSome <;>
        cases h3 : (tgUserId u).isEmpty
      case false.true.false =>
        have hstep : tgHandleUpdate users jf (c, evs) u
            = (max c i, evs ++ processCommand users (tgUserId u) jf (pyStrip u.text)) := by
          simp only [tgHandleUpdate, hid, h1, h2, h3]
          simp
        have hids : tgHandledIds (u :: us) = i :: tgHandledIds us := by
          simp [tgHandledIds, tgWellFormed, hid, h1, h2, h3]
        rw [hstep, hids]
        exact ih users jf (max c i) _
      all_goals {
        have hstep : tgHandleUpdate users jf (c, evs) u = (c, evs) := by
          simp [tgHandleUpdate, hid, h1, h2, h3]
        have hids : tgHandledIds (u :: us) = tgHandledIds us := by
          simp [tgHandledIds, tgWellFormed, hid, h1, h2, h3]
        rw [hstep, hids]
        exact ih users jf c evs
      }


theorem processedIds_cons (b : List MainUpdate) (bs : List (List MainUpdate)) :
    processedIds (b :: bs) = batchIds b ++ processedIds bs := rfl

theorem offsetContract_cons (c : Nat) (b : List MainUpdate) (bs : List (List MainUpdate)) :
    offsetContract c (b :: bs)
      = ((batchIds b).all (fun i => c < i) && offsetContract (mainNewCursor c b) bs) := rfl

theorem processedIds_gt : ∀ (bs : List (List MainUpdate)) (c : Nat),
    offsetContract c bs = true → ∀ y ∈ processedIds bs, c < y := by
  intro bs
  induction bs with
  | nil =>
    intro c _ y hy
    cases hy
  | cons b bs ih =>
    intro c hoc y hy
    rw [offsetContract_cons, Bool.and_eq_true] at hoc
    have hall : ∀ i ∈ batchIds b, c < i := by
      have := hoc.1
      simpa [List.all_eq_true] using this
    rw [processedIds_cons, List.mem_append] at hy
    rcases hy with hy | hy
    · exact hall y hy
    · have hc' : c ≤ mainNewCursor c b := by
        rw [mainNewCursor_eq]
        exact (foldl_max_le (batchIds b) c).1
      exact lt_of_le_of_lt hc' (ih (mainNewCursor c b) hoc.2 y hy)

theorem processedIds_nodup : ∀ (bs : List (List MainUpdate)) (c : Nat),
    offsetContract c bs = true → (∀ b ∈ bs, (batchIds b).Nodup) →
    (processedIds bs).Nodup := by
  intro bs
  induction bs with
  | nil => intro c _ _; exact List.nodup_nil
  | cons b bs ih =>
    intro c hoc hnd
    rw [offsetContract_cons, Bool.and_eq_true] at hoc
    rw [processedIds_cons, List.nodup_append]
    refine ⟨hnd b (by simp), ih _ hoc.2 (fun b2 hb2 => hnd b2 (by simp [hb2])), ?_⟩
    intro x hx hx2
    have hle : x ≤ mainNewCursor c b := by
      rw [mainNewCursor_eq]
      exact (foldl_max_le (batchIds b) c).2 x hx
    have hgt : mainNewCursor c b < x :=
      processedIds_gt bs (mainNewCursor c b) hoc.2 x hx2
    omega

theorem tgNewCursor_eq (c : Nat) (updates : List TgUpdate) :
    tgNewCursor c updates = (tgHandledIds updates).foldl max c := by
  have h : tgNewCursor c updates
      = (updates.foldl (tgHandleUpdate [] false) (c, [])).1 := rfl
  rw [h, tgFold_fst]

theorem tgHandledIds_sublist : ∀ (updates : List TgUpdate),
    (tgHandledIds updates).Sublist (tgBatchIds updates) := by
  intro updates
  induction updates with
  | nil => exact List.Sublist.refl []
  | cons u us ih =>
    cases hwf : tgWellFormed u
    · have hids : tgHandledIds (u :: us) = tgHandledIds us := by
        simp [tgHandledIds, hwf]
      rw [hids]
      cases hid : u.update_id with
      | none =>
        have hb : tgBatchIds (u :: us) = tgBatchIds us := by
          simp [tgBatchIds, hid]
        rw [hb]
        exact ih
      | some i =>
        have hb : tgBatchIds (u :: us) = i :: tgBatchIds us := by
          simp [tgBatchIds, hid]
        rw [hb]
        exact List.Sublist.cons i ih
    · have hsome : ∃ i, u.update_id = some i := by
        unfold tgWellFormed at hwf
        cases hid : u.update_id with
        | none => rw [hid] at hwf; simp at hwf
        | some i => exact ⟨i, rfl⟩
      obtain ⟨i, hid⟩ := hsome
      have hids : tgHandledIds (u :: us) = i :: tgHandledIds us := by
        simp [tgHandledIds, hwf, hid]
      have hb : tgBatchIds (u :: us) = i :: tgBatchIds us := by
        simp [tgBatchIds, hid]
      rw [hids, hb]
      exact List.Sublist.cons₂ i ih

theorem tgHandled_mem_batch (updates : List TgUpdate) (x : Nat)
    (hx : x ∈ tgHandledIds updates) : x ∈ tgBatchIds updates :=
  (tgHandledIds_sublist updates).mem hx

theorem tgProcessedIds_cons (b : List TgUpdate) (bs : List (List TgUpdate)) :
    tgProcessedIds (b :: bs) = tgHandledIds b ++ tgProcessedIds bs := rfl

theorem tgOffsetContract_cons (c : Nat) (b : List TgUpdate) (bs : List (List TgUpdate)) :
    tgOffsetContract c (b :: bs)
      = ((tgBatchIds b).all (fun i => c < i) && tgOffsetContract (tgNewCursor c b) bs) := rfl

theorem tgProcessedIds_gt : ∀ (bs : List (List TgUpdate)) (c : Nat),
    tgOffsetContract c bs = true → ∀ y ∈ tgProcessedIds bs, c < y := by
  intro bs
  induction bs with
  | nil =>
    intro c _ y hy
    cases hy
  | cons b bs ih =>
    intro c hoc y hy
    rw [tgOffsetContract_cons, Bool.and_eq_true] at hoc
    have hall : ∀ i ∈ tgBatchIds b, c < i := by
      have := hoc.1
      simpa [List.all_eq_true] using this
    rw [tgProcessedIds_cons, List.mem_append] at hy
    rcases hy with hy | hy
    · exact hall y (tgHandled_mem_batch b y hy)
    · have hc' : c ≤ tgNewCursor c b := by
        rw [tgNewCursor_eq]
        exact (foldl_max_le (tgHandledIds b) c).1
      exact lt_of_le_of_lt hc' (ih (tgNewCursor c b) hoc.2 y hy)

theorem tgProcessedIds_nodup : ∀ (bs : List (List TgUpdate)) (c : Nat),
    tgOffsetContract c bs = true → (∀ b ∈ bs, (tgBatchIds b).Nodup) →
    (tgProcessedIds bs).Nodup := by
  intro bs
  induction bs with
  | nil => intro c _ _; exact List.nodup_nil
  | cons b bs ih =>
    intro c hoc hnd
    rw [tgOffsetContract_cons, Bool.and_eq_true] at hoc
    rw [tgProcessedIds_cons, List.nodup_append]
    refine ⟨((hnd b (by simp)).sublist (tgHandledIds_sublist b)),
      ih _ hoc.2 (fun b2 hb2 => hnd b2 (by simp [hb2])), ?_⟩
    intro x hx hx2
    have hle : x ≤ tgNewCursor c b := by
      rw [tgNewCursor_eq]
      exact (foldl_max_le (tgHandledIds b) c).2 x hx
    have hgt : tgNewCursor c b < x :=
      tgProcessedIds_gt bs (tgNewCursor c b) hoc.2 x hx2
    omega

/-! ## Claim C2 (amended) -/

/-- C2 (amended): src/main.py's poll returns the maximum update id of the
batch (the cursor unchanged when the batch is empty); src/telegram_utils.py's
poll returns the maximum update id over the WELL-FORMED (non-skipped)
updates only, the cursor unchanged when there is none; and in both loops,
under the queue's offset contract (every batch's ids exceed the fed-back
cursor) with no duplicate ids inside a batch, no update id is ever
processed twice across repeated polls — for telegram_utils this is the
handled (dispatched) ids: a skipped update's id may exceed the returned
cursor and reappear in later batches, yet a handled id never recurs. -/
theorem poll_cursor_amended :
    (∀ (c : Nat) (updates : List MainUpdate),
      batchIds updates ≠ [] → (∀ i ∈ batchIds updates, c < i) →
      mainNewCursor c updates ∈ batchIds updates ∧
        ∀ i ∈ batchIds updates, i ≤ mainNewCursor c updates) ∧
    (∀ c : Nat, mainNewCursor c [] = c) ∧
    (∀ (token : List Char) (users : List (List Char)) (jf : Bool) (c : Nat)
        (updates : List TgUpdate) (r : Nat) (evs : List Event),
      token.isEmpty = false →
      tg_process_messages token users jf (.response true updates) c = .ok (r, evs) →
      (tgHandledIds updates = [] → r = c) ∧
      (tgHandledIds updates ≠ [] → (∀ i ∈ tgHandledIds updates, c < i) →
        r ∈ tgHandledIds updates ∧ ∀ i ∈ tgHandledIds updates, i ≤ r)) ∧
    (∀ (c : Nat) (bs : List (List MainUpdate)),
      offsetContract c bs = true → (∀ b ∈ bs, (batchIds b).Nodup) →
      (processedIds bs).Nodup) ∧
    (∀ (c : Nat) (bs : List (List TgUpdate)),
      tgOffsetContract c bs = true → (∀ b ∈ bs, (tgBatchIds b).Nodup) →
      (tgProcessedIds bs).Nodup) := by
  refine ⟨?_, fun c => rfl, ?_, ?_, ?_⟩
  · intro c updates hne hgt
    rw [mainNewCursor_eq]
    constructor
    · rcases foldl_max_mem (batchIds updates) c with h | h
      · exfalso
        match hb : batchIds updates, hne with
        | i :: rest, _ =>
          have h1 : i ≤ (batchIds updates).foldl max c := by
            refine (foldl_max_le (batchIds updates) c).2 i ?_
            rw [hb]; simp
          have h2 : c < i := by
            refine hgt i ?_
            rw [hb]; simp
          rw [hb] at h
          rw [← hb] at h
          omega
      · exact h
    · exact (foldl_max_le (batchIds updates) c).2
  · intro token users jf c updates r evs htok hok
    unfold tg_process_messages at hok
    rw [htok] at hok
    simp only [Bool.false_eq_true, if_false] at hok
    replace hok :
        (Except.ok (updates.foldl (tgHandleUpdate users jf) (c, []))
          : Except PyErr (Nat × List Event)) = Except.ok (r, evs) := hok
    injection hok with hok
    have hr : r = (tgHandledIds updates).foldl max c := by
      rw [← tgFold_fst updates users jf c []]
      rw [hok]
    constructor
    · intro hnil
      rw [hr, hnil]
      rfl
    · intro hne hgt
      rw [hr]
      constructor
      · rcases foldl_max_mem (tgHandledIds updates) c with h | h
        · exfalso
          match hb : tgHandledIds updates, hne with
          | i :: rest, _ =>
            have h1 : i ≤ (tgHandledIds updates).foldl max c := by
              refine (foldl_max_le (tgHandledIds updates) c).2 i ?_
              rw [hb]; simp
            have h2 : c < i := by
              refine hgt i ?_
              rw [hb]; simp
            rw [hb] at h
            rw [← hb] at h
            omega
        · exact h
      · exact (foldl_max_le (tgHandledIds updates) c).2
  · intro c bs hoc hnd
    exact processedIds_nodup bs c hoc hnd
  · intro c bs hoc hnd
    exact tgProcessedIds_nodup bs c hoc hnd

/-- Witness for C2: from cursor 4 a batch with ids {5,7,9} returns the
batch maximum (an id of the batch bounding all others); the processed ids
of two contract-following main.py polls contain no duplicate; and for
telegram_utils, a run in which the skipped update 7 reappears in the
second batch still handles no id twice. -/
theorem poll_cursor_amended_w :
    (mainNewCursor 4 [⟨5, [], none⟩, ⟨7, [], none⟩, ⟨9, [], none⟩]
        ∈ batchIds [⟨5, [], none⟩, ⟨7, [], none⟩, ⟨9, [], none⟩] ∧
      ∀ i ∈ batchIds [⟨5, [], none⟩, ⟨7, [], none⟩, ⟨9, [], none⟩],
        i ≤ mainNewCursor 4 [⟨5, [], none⟩, ⟨7, [], none⟩, ⟨9, [], none⟩]) ∧
    (processedIds [[⟨5, [], none⟩, ⟨7, [], none⟩, ⟨9, [], none⟩], [⟨12, [], none⟩]]).Nodup ∧
    (tgProcessedIds
      [[⟨some 5, ("hi".toList), some 1, some 2⟩, ⟨some 7, [], some 1, some 2⟩],
       [⟨some 7, [], some 1, some 2⟩, ⟨some 8, ("ok".toList), some 1, some 2⟩]]).Nodup := by
  refine ⟨?_, ?_, ?_⟩
  · exact poll_cursor_amended.1 4 [⟨5, [], none⟩, ⟨7, [], none⟩, ⟨9, [], none⟩]
      (by decide) (by decide)
  · exact poll_cursor_amended.2.2.2.1 4
      [[⟨5, [], none⟩, ⟨7, [], none⟩, ⟨9, [], none⟩], [⟨12, [], none⟩]]
      (by decide) (by decide)
  · exact poll_cursor_amended.2.2.2.2 4
      [[⟨some 5, ("hi".toList), some 1, some 2⟩, ⟨some 7, [], some 1, some 2⟩],
       [⟨some 7, [], some 1, some 2⟩, ⟨some 8, ("ok".toList), some 1, some 2⟩]]
      (by decide) (by decide)

/-- Counterexample for C2 as stated: a telegram_utils poll from cursor 4
whose only update has id 5 but no text returns cursor 4, not the batch
maximum 5. -/
theorem poll_cursor_skipped_update_cx :
    tg_process_messages ("tok".toList) [] false
      (.response true [⟨some 5, [], some 10, some 99⟩]) 4 = .ok (4, []) ∧
    (5 : Nat) ≠ 4 :=
  ⟨rfl, by decide⟩

end TelegramTorrent
